import Mathlib

/-!
# StudyAPI — shallow embedding of the domain core

A shallow embedding, in Lean 4, of the domain-consistency and query engine of
the StudyAPI repository: the MongoDB-backed repositories
(`app/repositories/*.py`) and the service layer (`app/services/*.py`) for
venues ("cafes"), reviews, users and bookmarks.

Modelling conventions:
* MongoDB `ObjectId`s are opaque identifiers, modelled as `Nat` drawn from a
  per-store fresh counter (`Store.nextId`); callers never choose them, matching
  the source where ids are assigned by the store at insertion.
* `datetime.utcnow()` is modelled by a logical clock `Store.clock`; every
  repository call that asks for the current time reads the clock and the
  post-state advances it, so time is strictly monotone across store writes.
* Ratings are `confloat`/`conint` bounded numerics in the source; they are
  modelled as `Rat` (reviews, user stats) and `Nat` (the venue's 1–5 integer
  display rating).  No floating-point rounding is relevant to the claims.
* Python `dict` update payloads built with `exclude_unset=True` /
  "drop `None` values" are modelled as structures of `Option` fields where
  `none` means "key absent from the dict".
* A raised `fastapi.HTTPException(status, detail)` or Python `ValueError` is
  modelled as the `error` branch of `Except ServiceError`; an error raised
  before any store write leaves the store untouched, exactly as in the source
  where the exception aborts the request before the write is issued.
-/

set_option linter.unnecessarySeqFocus false

namespace StudyAPI

/-- MongoDB ObjectId, an opaque identifier assigned by the store. -/
abbrev OID := Nat

/-- Source `app/models/cafe.py` `Address`. -/
structure Address where
  street : String
  city : String
  state : String
  zip_code : String
  country : String
deriving DecidableEq, Repr

/-- A stored venue document (`app/models/cafe.py` `Cafe`), the shape held in
the `cafes` collection.  The GeoJSON location is kept as the raw coordinate
pair; `opening_hours` (a free-form dict unused by every claim) is omitted. -/
structure CafeDoc where
  id : OID
  name : String
  address : Address
  lon : Rat
  lat : Rat
  phone : Option String
  website : Option String
  amenities : Option (List String)
  thumbnail_url : Option String
  wifi_access : Nat
  outlet_accessibility : Nat
  average_rating : Nat
  atmosphere : List String
  energy_level : List String
  study_friendly : List String
  created_at : Nat
  updated_at : Nat
deriving DecidableEq, Repr

/-- Source `app/models/review.py` `Photo`, embedded in a review document. -/
structure PhotoDoc where
  id : OID
  url : String
  caption : Option String
deriving DecidableEq, Repr

/-- A stored review document (`app/models/review.py` `Review`).  Note that the
repository converts only `study_spot_id` to an `ObjectId`
(`review_repository.py` line 19); `user_id` is stored as the raw request
string, so it stays a `String` here. -/
structure ReviewDoc where
  id : OID
  study_spot_id : OID
  user_id : String
  overall_rating : Rat
  outlet_accessibility : Rat
  wifi_quality : Rat
  atmosphere : Option String
  energy_level : Option String
  study_friendly : Option String
  photos : List PhotoDoc
  created_at : Nat
  updated_at : Nat
deriving DecidableEq, Repr

/-- A stored user document (`app/models/user.py` `User`). -/
structure UserDoc where
  id : OID
  name : String
  password : String
  cafes_visited : Nat
  average_rating : Rat
  profile_picture : Option String
  created_at : Nat
  updated_at : Nat
deriving DecidableEq, Repr

/-- A stored bookmark document (`app/models/bookmark.py` `Bookmark`). -/
structure BookmarkDoc where
  id : OID
  user_id : OID
  cafe_id : OID
  bookmarked_at : Nat
deriving DecidableEq, Repr

/-- The document store: the four collections of `app/config/database.py`'s
database handle, plus the fresh-`ObjectId` source and the logical clock. -/
structure Store where
  cafes : List CafeDoc
  reviews : List ReviewDoc
  users : List UserDoc
  bookmarks : List BookmarkDoc
  nextId : OID
  clock : Nat
deriving DecidableEq, Repr

/-- The empty database the application starts from. -/
def Store.initial : Store :=
  { cafes := [], reviews := [], users := [], bookmarks := [], nextId := 0, clock := 0 }

/-- A raised `fastapi.HTTPException(status_code, detail)` or Python
`ValueError(msg)`.  The spec's error taxonomy maps onto these:
`ValidationError` is the 400s, `IntegrityError` the guard's 404s raised before
a dependent write, `ConflictError` the 409 / duplicate-name `ValueError`. -/
inductive ServiceError
  | http (status : Nat) (detail : String)
  | valueError (msg : String)
deriving DecidableEq, Repr

/-! ## MongoDB single-document write primitives

`update_one` applies a `$set` to the first matching document and reports
`modified_count = 1` exactly when the matched document actually changed;
`delete_one` removes the first matching document and reports `deleted_count`.
-/

/-- Rewrite the first element satisfying `p` by `f`; the rest is unchanged. -/
def updateFirst {α : Type} (p : α → Bool) (f : α → α) : List α → List α
  | [] => []
  | x :: xs => if p x then f x :: xs else x :: updateFirst p f xs

/-- Remove the first element satisfying `p`. -/
def deleteFirst {α : Type} (p : α → Bool) : List α → List α
  | [] => []
  | x :: xs => if p x then xs else x :: deleteFirst p xs

/-- Source `update_one`'s `modified_count` (0 or 1): 1 iff a document matches `p` and
`$set` (here `f`) actually changes it. -/
def modifiedCount {α : Type} [DecidableEq α] (p : α → Bool) (f : α → α) (l : List α) : Nat :=
  match l.find? p with
  | some x => if f x = x then 0 else 1
  | none => 0

/-! ## MongoDB query predicates used by the repositories

The repositories pass the raw, unescaped query string as a case-insensitive
`$regex` pattern (`cafe_repository.py` lines 60–67, `user_repository.py`
lines 113–121).  The PCRE engine that interprets the pattern belongs to the
document store — a collaborator, like its spherical metric — so venue search
takes the store's match predicate as a parameter, constrained where a
documented engine property is needed: a pattern containing no regex
metacharacter matches a subject precisely where it occurs as a literal
(case-insensitive) substring.  `dotRegexMatchI` below is one computable
instantiation, valid on the fragment generated by literal characters and the
`.` wildcard; it is used to run the model on concrete inputs whose patterns
stay inside that fragment. -/

/-- Matching step of the literal-and-`.` regex fragment:
`dotMatchesStart pat cs` holds when `pat` matches some prefix of `cs`, `.`
matching any single character and a literal matching up to case. -/
def dotMatchesStart : List Char → List Char → Bool
  | [], _ => true
  | _ :: _, [] => false
  | p :: ps, c :: cs => (p == '.' || p.toLower == c.toLower) && dotMatchesStart ps cs

/-- Case-insensitive unanchored matching for the regex fragment generated by
literal characters and the `.` wildcard.  On patterns inside this fragment it
agrees with the engine MongoDB's `$regex` invokes; it does not interpret any
other metacharacter, so it stands in for the engine only at such patterns. -/
def dotRegexMatchI (pat s : String) : Bool :=
  s.toList.tails.any (dotMatchesStart pat.toList)

/-- Case-insensitive literal-substring containment — the predicate the spec's
§4.5 "Free-text" paragraph describes.  Used only to compare the source's
`$regex` behaviour against the spec's words. -/
def substringMatchI (pat s : String) : Bool :=
  decide ((pat.toList.map Char.toLower) <:+: (s.toList.map Char.toLower))

/-- The PCRE characters that carry meaning in a `$regex` pattern. -/
def pcreMetachars : List Char :=
  ['\\', '^', '$', '.', '|', '?', '*', '+', '(', ')', '[', ']', '\x7b', '\x7d']

/-- A pattern free of every regex metacharacter: the engine reads it as the
literal string. -/
def isLiteralPattern (q : String) : Bool :=
  q.toList.all fun c => !pcreMetachars.contains c

/-- Python's `not query.strip()`: the query strips to the empty string
exactly when every character is whitespace. -/
def isBlank (q : String) : Bool :=
  q.toList.all Char.isWhitespace

/-! ## Cafe repository (`app/repositories/cafe_repository.py`) -/

/-- Source `app/models/cafe.py` `CafeCreate` (the request payload). -/
structure CafeCreate where
  name : String
  address : Address
  lon : Rat
  lat : Rat
  phone : Option String
  website : Option String
  amenities : Option (List String)
  thumbnail_url : Option String
  wifi_access : Nat
  outlet_accessibility : Nat
  average_rating : Nat
  atmosphere : List String
  energy_level : List String
  study_friendly : List String
deriving DecidableEq, Repr

/-- Source `app/models/cafe.py` `CafeUpdate`: every field optional; `none` models a
key absent from the `model_dump(exclude_unset=True)` dict. -/
structure CafeUpdate where
  name : Option String := none
  address : Option Address := none
  location : Option (Rat × Rat) := none
  phone : Option String := none
  website : Option String := none
  amenities : Option (List String) := none
  thumbnail_url : Option String := none
  wifi_access : Option Nat := none
  outlet_accessibility : Option Nat := none
  average_rating : Option Nat := none
  atmosphere : Option (List String) := none
  energy_level : Option (List String) := none
  study_friendly : Option (List String) := none
deriving DecidableEq, Repr

namespace CafeRepository

/-- Source `create_cafe`: stamp `created_at`/`updated_at` with the current time,
insert, and read the inserted document back. -/
def create_cafe (d : CafeCreate) (s : Store) : CafeDoc × Store :=
  let doc : CafeDoc :=
    { id := s.nextId, name := d.name, address := d.address, lon := d.lon, lat := d.lat
      phone := d.phone, website := d.website, amenities := d.amenities
      thumbnail_url := d.thumbnail_url, wifi_access := d.wifi_access
      outlet_accessibility := d.outlet_accessibility, average_rating := d.average_rating
      atmosphere := d.atmosphere, energy_level := d.energy_level
      study_friendly := d.study_friendly, created_at := s.clock, updated_at := s.clock }
  (doc, { s with cafes := s.cafes ++ [doc], nextId := s.nextId + 1, clock := s.clock + 1 })

/-- Source `get_cafe`: `find_one({"_id": ObjectId(cafe_id)})`. -/
def get_cafe (cafe_id : OID) (s : Store) : Option CafeDoc :=
  s.cafes.find? (·.id == cafe_id)

/-- The `$set` document of `update_cafe`: the dict's present keys, plus the
always-refreshed `updated_at` (`cafe_repository.py` line 44). -/
def applySet (u : CafeUpdate) (now : Nat) (c : CafeDoc) : CafeDoc :=
  { c with
    name := u.name.getD c.name
    address := u.address.getD c.address
    lon := (u.location.map Prod.fst).getD c.lon
    lat := (u.location.map Prod.snd).getD c.lat
    phone := (u.phone.map some).getD c.phone
    website := (u.website.map some).getD c.website
    amenities := (u.amenities.map some).getD c.amenities
    thumbnail_url := (u.thumbnail_url.map some).getD c.thumbnail_url
    wifi_access := u.wifi_access.getD c.wifi_access
    outlet_accessibility := u.outlet_accessibility.getD c.outlet_accessibility
    average_rating := u.average_rating.getD c.average_rating
    atmosphere := u.atmosphere.getD c.atmosphere
    energy_level := u.energy_level.getD c.energy_level
    study_friendly := u.study_friendly.getD c.study_friendly
    updated_at := now }

/-- Source `update_cafe`: `$set` with refreshed `updated_at`; the updated document is
returned only when `modified_count` is non-zero, else `None`. -/
def update_cafe (cafe_id : OID) (u : CafeUpdate) (s : Store) : Option CafeDoc × Store :=
  let f := applySet u s.clock
  let cafes' := updateFirst (·.id == cafe_id) f s.cafes
  let s' : Store := { s with cafes := cafes', clock := s.clock + 1 }
  ((if modifiedCount (·.id == cafe_id) f s.cafes ≠ 0 then
      cafes'.find? (·.id == cafe_id)
    else none), s')

/-- Source `delete_cafe`: `delete_one` on the id; true iff `deleted_count > 0`. -/
def delete_cafe (cafe_id : OID) (s : Store) : Bool × Store :=
  (s.cafes.any (·.id == cafe_id),
   { s with cafes := deleteFirst (·.id == cafe_id) s.cafes })

/-- Source `search_cafes`: `find` with an `$or` of case-insensitive `$regex` on
`name`, `address.city`, `address.street`, the raw query as the pattern.  The
store's regex-match predicate (the PCRE engine behind `$regex ... $options i`)
is a collaborator facility and is taken as the parameter `regex`, exactly as
the spherical metric is for `find_nearby_cafes`. -/
def search_cafes (regex : String → String → Bool) (query : String) (s : Store) :
    List CafeDoc :=
  s.cafes.filter fun c =>
    regex query c.name ||
    regex query c.address.city ||
    regex query c.address.street

/-- Source `find_nearby_cafes`: the `$near` geospatial query.  Per MongoDB's
documented semantics, `$near` with `$maxDistance` returns the documents whose
location is within `max_distance` meters of the query point under the
spherical-earth metric, sorted nearest first.  The spherical metric itself
belongs to the store (a collaborator, §6 of the spec) and is a parameter
`dist` here. -/
def find_nearby_cafes (dist : Rat × Rat → Rat × Rat → Rat)
    (longitude latitude max_distance : Rat) (s : Store) : List CafeDoc :=
  (s.cafes.filter fun c => dist (c.lon, c.lat) (longitude, latitude) ≤ max_distance)
    |>.mergeSort fun a b =>
      dist (a.lon, a.lat) (longitude, latitude) ≤ dist (b.lon, b.lat) (longitude, latitude)

/-- Source `find_cafes_by_rating`: `find` with `average_rating: {"$gte": min_rating}`. -/
def find_cafes_by_rating (min_rating : Rat) (s : Store) : List CafeDoc :=
  s.cafes.filter fun c => min_rating ≤ (c.average_rating : Rat)

end CafeRepository

/-! ## Cafe service (`app/services/cafe_service.py`) -/

namespace CafeService

/-- Source `_validate_coordinates`: longitude in [-180, 180], latitude in [-90, 90]
(the two-element length check is structural here). -/
def validate_coordinates (lon lat : Rat) : Bool :=
  -180 ≤ lon && lon ≤ 180 && -90 ≤ lat && lat ≤ 90

/-- Source `create_cafe`: reject invalid coordinates with a 400, else create. -/
def create_cafe (d : CafeCreate) (s : Store) : Except ServiceError (CafeDoc × Store) :=
  if validate_coordinates d.lon d.lat then
    .ok (CafeRepository.create_cafe d s)
  else
    .error (.http 400 "Invalid coordinates provided")

/-- Source `update_cafe`: `None` when the cafe does not exist; 400 on an invalid
location payload; else delegate and return `None` when the repository does. -/
def update_cafe (cafe_id : OID) (u : CafeUpdate) (s : Store) :
    Except ServiceError (Option CafeDoc × Store) :=
  match CafeRepository.get_cafe cafe_id s with
  | none => .ok (none, s)
  | some _ =>
    match u.location with
    | some (lon, lat) =>
      if validate_coordinates lon lat then .ok (CafeRepository.update_cafe cafe_id u s)
      else .error (.http 400 "Invalid coordinates provided")
    | none => .ok (CafeRepository.update_cafe cafe_id u s)

/-- Source `delete_cafe`: delegates directly. -/
def delete_cafe (cafe_id : OID) (s : Store) : Bool × Store :=
  CafeRepository.delete_cafe cafe_id s

/-- Source `search_cafes`: a query that strips to the empty string is a 400 raised
before the store is queried. -/
def search_cafes (regex : String → String → Bool) (query : String) (s : Store) :
    Except ServiceError (List CafeDoc) :=
  if isBlank query then .error (.http 400 "Search query cannot be empty")
  else .ok (CafeRepository.search_cafes regex query s)

/-- Source `find_nearby_cafes`: 400 on out-of-range coordinates or a non-positive
max distance, else the `$near` query. -/
def find_nearby_cafes (dist : Rat × Rat → Rat × Rat → Rat)
    (longitude latitude max_distance : Rat) (s : Store) :
    Except ServiceError (List CafeDoc) :=
  if ¬ validate_coordinates longitude latitude then
    .error (.http 400 "Invalid coordinates provided")
  else if max_distance ≤ 0 then
    .error (.http 400 "Max distance must be greater than 0")
  else
    .ok (CafeRepository.find_nearby_cafes dist longitude latitude max_distance s)

end CafeService

/-! ## Review repository (`app/repositories/review_repository.py`) -/

/-- Source `app/models/review.py` `ReviewCreate`.  The source carries
`study_spot_id` as a string and converts it with `ObjectId(...)` at insertion;
here ids are already opaque, so the field is an `OID` (a malformed id string —
which the conversion rejects — is not representable). -/
structure ReviewCreate where
  study_spot_id : OID
  user_id : String
  overall_rating : Rat
  outlet_accessibility : Rat
  wifi_quality : Rat
  atmosphere : Option String := none
  energy_level : Option String := none
  study_friendly : Option String := none
deriving DecidableEq, Repr

/-- Source `app/models/review.py` `ReviewUpdate` as the
`dict(exclude_unset=True)` payload of `ReviewService.update_review`;
`none` models a key absent from the dict. -/
structure ReviewUpdate where
  overall_rating : Option Rat := none
  outlet_accessibility : Option Rat := none
  wifi_quality : Option Rat := none
  atmosphere : Option String := none
  energy_level : Option String := none
  study_friendly : Option String := none
deriving DecidableEq, Repr

/-- Source `app/models/review.py` `PhotoCreate`. -/
structure PhotoCreate where
  url : String
  caption : Option String := none
deriving DecidableEq, Repr

namespace ReviewRepository

/-- Source `create_review`: stamp timestamps, initialise `photos` to `[]`, insert,
and read the inserted document back.  No existence check of any kind is made
on `study_spot_id` or `user_id`. -/
def create_review (d : ReviewCreate) (s : Store) : ReviewDoc × Store :=
  let doc : ReviewDoc :=
    { id := s.nextId, study_spot_id := d.study_spot_id, user_id := d.user_id
      overall_rating := d.overall_rating, outlet_accessibility := d.outlet_accessibility
      wifi_quality := d.wifi_quality, atmosphere := d.atmosphere
      energy_level := d.energy_level, study_friendly := d.study_friendly
      photos := [], created_at := s.clock, updated_at := s.clock }
  (doc, { s with reviews := s.reviews ++ [doc], nextId := s.nextId + 1, clock := s.clock + 1 })

/-- Source `get_review`: `find_one` by id. -/
def get_review (review_id : OID) (s : Store) : Option ReviewDoc :=
  s.reviews.find? (·.id == review_id)

/-- Source `get_reviews_by_study_spot`: `find({"study_spot_id": ObjectId(id)})`. -/
def get_reviews_by_study_spot (study_spot_id : OID) (s : Store) : List ReviewDoc :=
  s.reviews.filter (·.study_spot_id == study_spot_id)

/-- The `$set` document of `update_review`: present keys plus the refreshed
`updated_at` (`review_repository.py` line 55). -/
def applySet (u : ReviewUpdate) (now : Nat) (r : ReviewDoc) : ReviewDoc :=
  { r with
    overall_rating := u.overall_rating.getD r.overall_rating
    outlet_accessibility := u.outlet_accessibility.getD r.outlet_accessibility
    wifi_quality := u.wifi_quality.getD r.wifi_quality
    atmosphere := (u.atmosphere.map some).getD r.atmosphere
    energy_level := (u.energy_level.map some).getD r.energy_level
    study_friendly := (u.study_friendly.map some).getD r.study_friendly
    updated_at := now }

/-- Source `update_review`: `$set`; the updated document is returned only when
`modified_count` is non-zero, else `None`. -/
def update_review (review_id : OID) (u : ReviewUpdate) (s : Store) :
    Option ReviewDoc × Store :=
  let f := applySet u s.clock
  let reviews' := updateFirst (·.id == review_id) f s.reviews
  let s' : Store := { s with reviews := reviews', clock := s.clock + 1 }
  ((if modifiedCount (·.id == review_id) f s.reviews ≠ 0 then
      reviews'.find? (·.id == review_id)
    else none), s')

/-- Source `delete_review`: `delete_one`; true iff `deleted_count > 0`. -/
def delete_review (review_id : OID) (s : Store) : Bool × Store :=
  (s.reviews.any (·.id == review_id),
   { s with reviews := deleteFirst (·.id == review_id) s.reviews })

/-- Source `add_photo`: `$push` a photo with a fresh `ObjectId` onto `photos`; if the
review matched, read it back. -/
def add_photo (review_id : OID) (p : PhotoCreate) (s : Store) :
    Option ReviewDoc × Store :=
  let photo : PhotoDoc := { id := s.nextId, url := p.url, caption := p.caption }
  let f : ReviewDoc → ReviewDoc := fun r => { r with photos := r.photos ++ [photo] }
  let reviews' := updateFirst (·.id == review_id) f s.reviews
  let s' : Store := { s with reviews := reviews', nextId := s.nextId + 1 }
  ((if modifiedCount (·.id == review_id) f s.reviews ≠ 0 then
      reviews'.find? (·.id == review_id)
    else none), s')

end ReviewRepository

/-! ## Review service (`app/services/review_service.py`)

Every review mutation then tries
`await self.cafe_service.update_cafe_average_rating(...)` inside a
`try/except` that logs and swallows any exception.  `CafeService`
(`app/services/cafe_service.py`) defines **no** method of that name, so the
attempted attribute access raises `AttributeError` before any store
interaction, and the except-branch keeps the post-write store unchanged.
The service is therefore modelled generically over the recomputation step
(`createReviewWith` …), and the shipped code is the instantiation at
`update_cafe_average_rating_missing`, the always-raising step. -/

namespace ReviewService

/-- The `try/except` around the recomputation call: on success the store the
step produced is kept, on any exception the failure is logged and the
pre-step store is kept. -/
def attemptRecompute (recompute : OID → Store → Except String Store)
    (cafe_id : OID) (s : Store) : Store :=
  match recompute cafe_id s with
  | .ok s' => s'
  | .error _ => s

/-- The recomputation step as shipped: `CafeService` has no attribute
`update_cafe_average_rating`, so the call raises immediately, touching
nothing. -/
def update_cafe_average_rating_missing : OID → Store → Except String Store :=
  fun _ _ => .error "AttributeError: CafeService object has no attribute update_cafe_average_rating"

/-- Source `create_review`, generic in the recomputation step: create, then attempt
the venue-rating recomputation with failures swallowed. -/
def create_review_with (recompute : OID → Store → Except String Store)
    (d : ReviewCreate) (s : Store) : ReviewDoc × Store :=
  let (r, s₁) := ReviewRepository.create_review d s
  (r, attemptRecompute recompute d.study_spot_id s₁)

/-- Source `create_review` as shipped. -/
def create_review (d : ReviewCreate) (s : Store) : ReviewDoc × Store :=
  create_review_with update_cafe_average_rating_missing d s

/-- Source `update_review`, generic in the recomputation step: `None` when the review
does not exist; else update, and when the dict contains `overall_rating` and
the update returned a document, attempt the recomputation with failures
swallowed. -/
def update_review_with (recompute : OID → Store → Except String Store)
    (review_id : OID) (u : ReviewUpdate) (s : Store) : Option ReviewDoc × Store :=
  match ReviewRepository.get_review review_id s with
  | none => (none, s)
  | some existing =>
    let (updated, s₁) := ReviewRepository.update_review review_id u s
    match updated with
    | some r =>
      if u.overall_rating.isSome then
        (some r, attemptRecompute recompute existing.study_spot_id s₁)
      else
        (some r, s₁)
    | none => (none, s₁)

/-- Source `update_review` as shipped. -/
def update_review (review_id : OID) (u : ReviewUpdate) (s : Store) :
    Option ReviewDoc × Store :=
  update_review_with update_cafe_average_rating_missing review_id u s

/-- Source `delete_review`, generic in the recomputation step: `false` when the
review does not exist; else delete and, if a document was deleted, attempt the
recomputation with failures swallowed. -/
def delete_review_with (recompute : OID → Store → Except String Store)
    (review_id : OID) (s : Store) : Bool × Store :=
  match ReviewRepository.get_review review_id s with
  | none => (false, s)
  | some toDelete =>
    let (deleted, s₁) := ReviewRepository.delete_review review_id s
    if deleted then
      (true, attemptRecompute recompute toDelete.study_spot_id s₁)
    else
      (false, s₁)

/-- Source `delete_review` as shipped. -/
def delete_review (review_id : OID) (s : Store) : Bool × Store :=
  delete_review_with update_cafe_average_rating_missing review_id s

/-- Source `add_photo`: `None` when the review does not exist, else delegate. -/
def add_photo (review_id : OID) (p : PhotoCreate) (s : Store) :
    Option ReviewDoc × Store :=
  match ReviewRepository.get_review review_id s with
  | none => (none, s)
  | some _ => ReviewRepository.add_photo review_id p s

end ReviewService

/-! ## User repository (`app/repositories/user_repository.py`) -/

/-- Source `app/models/user.py` `UserCreate`. -/
structure UserCreate where
  name : String
  password : String
  cafes_visited : Nat := 0
  average_rating : Rat := 0
deriving DecidableEq, Repr

/-- Source `app/models/user.py` `UserUpdate`, after the service drops the `None`
values: `none` models a key absent from the update dict. -/
structure UserUpdate where
  name : Option String := none
  cafes_visited : Option Nat := none
  average_rating : Option Rat := none
  password : Option String := none
deriving DecidableEq, Repr

namespace UserRepository

/-- Source `create_user`: reject an already-taken name (exact string equality, the
`find_one({"name": ...})` lookup) with `ValueError` before any write; else
stamp timestamps, initialise `profile_picture` to `None`, insert. -/
def create_user (d : UserCreate) (s : Store) : Except ServiceError (UserDoc × Store) :=
  if s.users.any (·.name == d.name) then
    .error (.valueError "User with this name already exists")
  else
    let doc : UserDoc :=
      { id := s.nextId, name := d.name, password := d.password
        cafes_visited := d.cafes_visited, average_rating := d.average_rating
        profile_picture := none, created_at := s.clock, updated_at := s.clock }
    .ok (doc, { s with users := s.users ++ [doc], nextId := s.nextId + 1, clock := s.clock + 1 })

/-- Source `get_user`: `find_one` by id (exceptions give `None`). -/
def get_user (user_id : OID) (s : Store) : Option UserDoc :=
  s.users.find? (·.id == user_id)

/-- Source `get_user_by_name`: `find_one({"name": name})`, exact match. -/
def get_user_by_name (name : String) (s : Store) : Option UserDoc :=
  s.users.find? (·.name == name)

/-- Source `get_all_users`: `find().skip(skip).limit(limit)`. -/
def get_all_users (skip limit : Nat) (s : Store) : List UserDoc :=
  (s.users.drop skip).take limit

/-- The `$set` document of `update_user`: present keys plus the refreshed
`updated_at` (`user_repository.py` line 75). -/
def applySet (u : UserUpdate) (now : Nat) (d : UserDoc) : UserDoc :=
  { d with
    name := u.name.getD d.name
    cafes_visited := u.cafes_visited.getD d.cafes_visited
    average_rating := u.average_rating.getD d.average_rating
    password := u.password.getD d.password
    updated_at := now }

/-- Source `update_user`: when the dict renames, a `find_one` checks no *other* user
(`_id: {"$ne": ...}`) holds the name; the raised `ValueError` is caught by the
method's own blanket `except`, which returns `None` with nothing written.
Otherwise `$set` with refreshed `updated_at`; the updated document is returned
only when `modified_count` is non-zero. -/
def update_user (user_id : OID) (u : UserUpdate) (s : Store) : Option UserDoc × Store :=
  if (match u.name with
      | some n => s.users.any fun d => d.name == n && d.id != user_id
      | none => false) then
    (none, s)
  else
    let f := applySet u s.clock
    let users' := updateFirst (·.id == user_id) f s.users
    let s' : Store := { s with users := users', clock := s.clock + 1 }
    ((if modifiedCount (·.id == user_id) f s.users ≠ 0 then
        users'.find? (·.id == user_id)
      else none), s')

/-- Source `delete_user`: `delete_one`; true iff `deleted_count > 0`. -/
def delete_user (user_id : OID) (s : Store) : Bool × Store :=
  (s.users.any (·.id == user_id),
   { s with users := deleteFirst (·.id == user_id) s.users })

/-- Source `update_profile_picture`: `$set` of `profile_picture` and `updated_at`. -/
def update_profile_picture (user_id : OID) (filename : String) (s : Store) :
    Option UserDoc × Store :=
  let f : UserDoc → UserDoc := fun d =>
    { d with profile_picture := some filename, updated_at := s.clock }
  let users' := updateFirst (·.id == user_id) f s.users
  let s' : Store := { s with users := users', clock := s.clock + 1 }
  ((if modifiedCount (·.id == user_id) f s.users ≠ 0 then
      users'.find? (·.id == user_id)
    else none), s')

/-- Source `search_users`: `find` with case-insensitive `$regex` on `name`. -/
def search_users (query : String) (s : Store) : List UserDoc :=
  s.users.filter fun d => dotRegexMatchI query d.name

end UserRepository

/-! ## User service (`app/services/user_service.py`) -/

/-- Source `app/models/user.py` `UserResponse`: the user document without its
`password` field. -/
structure UserResponse where
  id : OID
  name : String
  cafes_visited : Nat
  average_rating : Rat
  profile_picture : Option String
  created_at : Nat
  updated_at : Nat
deriving DecidableEq, Repr

namespace UserService

/-- Source `_to_user_response`: `model_dump(exclude={'password'})`. -/
def to_user_response (u : UserDoc) : UserResponse :=
  { id := u.id, name := u.name, cafes_visited := u.cafes_visited
    average_rating := u.average_rating, profile_picture := u.profile_picture
    created_at := u.created_at, updated_at := u.updated_at }

/-- Source `create_user`. -/
def create_user (d : UserCreate) (s : Store) : Except ServiceError (UserResponse × Store) :=
  (UserRepository.create_user d s).map fun (u, s') => (to_user_response u, s')

/-- Source `get_user`. -/
def get_user (user_id : OID) (s : Store) : Option UserResponse :=
  (UserRepository.get_user user_id s).map to_user_response

/-- Source `get_all_users`. -/
def get_all_users (skip limit : Nat) (s : Store) : List UserResponse :=
  (UserRepository.get_all_users skip limit s).map to_user_response

/-- Whether the `{k: v for k, v in user_data.model_dump().items() if v is not
None}` dict of `UserService.update_user` is empty. -/
def UserUpdate.isEmptyDict (u : UserUpdate) : Bool :=
  u.name.isNone && u.cafes_visited.isNone && u.average_rating.isNone && u.password.isNone

/-- Source `update_user`: an all-`None` payload short-circuits to `None` without
touching the store; else delegate. -/
def update_user (user_id : OID) (u : UserUpdate) (s : Store) :
    Option UserResponse × Store :=
  if UserUpdate.isEmptyDict u then (none, s)
  else
    let (r, s') := UserRepository.update_user user_id u s
    (r.map to_user_response, s')

/-- Source `delete_user` (the object-storage cleanup touches no store collection). -/
def delete_user (user_id : OID) (s : Store) : Bool × Store :=
  UserRepository.delete_user user_id s

/-- Source `update_profile_picture`. -/
def update_profile_picture (user_id : OID) (filename : String) (s : Store) :
    Option UserResponse × Store :=
  let (r, s') := UserRepository.update_profile_picture user_id filename s
  (r.map to_user_response, s')

/-- Source `search_users`. -/
def search_users (query : String) (s : Store) : List UserResponse :=
  (UserRepository.search_users query s).map to_user_response

end UserService

/-! ## Bookmark repository (`app/repositories/bookmark_repository.py`) -/

/-- Source `app/models/bookmark.py` `BookmarkCreate`. -/
structure BookmarkCreate where
  user_id : OID
  cafe_id : OID
deriving DecidableEq, Repr

/-- The venue summary projected into a joined bookmark row
(`bookmark_repository.py` lines 74–88). -/
structure CafeSummary where
  id : OID
  name : String
  address : Address
  lon : Rat
  lat : Rat
  average_rating : Nat
  thumbnail_url : Option String
  amenities : Option (List String)
deriving DecidableEq, Repr

/-- Source `app/models/bookmark.py` `BookmarkWithCafe`: a bookmark with the
left-outer-joined venue summary, `none` when the venue is gone. -/
structure BookmarkWithCafe where
  id : OID
  user_id : OID
  cafe_id : OID
  bookmarked_at : Nat
  cafe : Option CafeSummary
deriving DecidableEq, Repr

namespace BookmarkRepository

/-- Source `create_bookmark`: stamp `bookmarked_at`, insert, read back. -/
def create_bookmark (d : BookmarkCreate) (s : Store) : BookmarkDoc × Store :=
  let doc : BookmarkDoc :=
    { id := s.nextId, user_id := d.user_id, cafe_id := d.cafe_id, bookmarked_at := s.clock }
  (doc, { s with bookmarks := s.bookmarks ++ [doc], nextId := s.nextId + 1, clock := s.clock + 1 })

/-- Source `get_bookmark`: `find_one` by id. -/
def get_bookmark (bookmark_id : OID) (s : Store) : Option BookmarkDoc :=
  s.bookmarks.find? (·.id == bookmark_id)

/-- The `$project` stage's venue summary. -/
def cafeSummary (c : CafeDoc) : CafeSummary :=
  { id := c.id, name := c.name, address := c.address, lon := c.lon, lat := c.lat
    average_rating := c.average_rating, thumbnail_url := c.thumbnail_url
    amenities := c.amenities }

/-- Source `get_bookmarks_by_user`: the aggregation pipeline — `$match` on the user,
`$sort` by `bookmarked_at` descending (newest first), `$lookup` against
`cafes` with `$unwind(preserveNullAndEmptyArrays)`, and a `$project` that
yields the venue summary or `None` when the venue document is gone.  Venue
ids are unique in every reachable store, so the `$lookup` is the first (only)
match. -/
def get_bookmarks_by_user (user_id : OID) (s : Store) : List BookmarkWithCafe :=
  ((s.bookmarks.filter (·.user_id == user_id)).mergeSort
      (fun a b => b.bookmarked_at ≤ a.bookmarked_at)).map fun b =>
    { id := b.id, user_id := b.user_id, cafe_id := b.cafe_id
      bookmarked_at := b.bookmarked_at
      cafe := (s.cafes.find? (·.id == b.cafe_id)).map cafeSummary }

/-- Source `delete_bookmark`: `delete_one` by id. -/
def delete_bookmark (bookmark_id : OID) (s : Store) : Bool × Store :=
  (s.bookmarks.any (·.id == bookmark_id),
   { s with bookmarks := deleteFirst (·.id == bookmark_id) s.bookmarks })

/-- Source `delete_bookmark_by_user_and_cafe`: `delete_one` by the pair. -/
def delete_bookmark_by_user_and_cafe (user_id cafe_id : OID) (s : Store) : Bool × Store :=
  let p : BookmarkDoc → Bool := fun b => b.user_id == user_id && b.cafe_id == cafe_id
  (s.bookmarks.any p, { s with bookmarks := deleteFirst p s.bookmarks })

/-- Source `get_bookmark_by_user_and_cafe`: `find_one` by the pair. -/
def get_bookmark_by_user_and_cafe (user_id cafe_id : OID) (s : Store) : Option BookmarkDoc :=
  s.bookmarks.find? fun b => b.user_id == user_id && b.cafe_id == cafe_id

/-- Source `bookmark_exists`: `count_documents` on the pair, compared with 0. -/
def bookmark_exists (user_id cafe_id : OID) (s : Store) : Bool :=
  0 < s.bookmarks.countP fun b => b.user_id == user_id && b.cafe_id == cafe_id

end BookmarkRepository

/-! ## Bookmark service (`app/services/bookmark_service.py`) -/

namespace BookmarkService

/-- Source `create_bookmark`: the referential-integrity guard (user then cafe must
exist, 404 before any write), the uniqueness guard (`bookmark_exists`, 409
before any write), then the insert. -/
def create_bookmark (d : BookmarkCreate) (s : Store) :
    Except ServiceError (BookmarkDoc × Store) :=
  match UserRepository.get_user d.user_id s with
  | none => .error (.http 404 "User not found")
  | some _ =>
    match CafeRepository.get_cafe d.cafe_id s with
    | none => .error (.http 404 "Cafe not found")
    | some _ =>
      if BookmarkRepository.bookmark_exists d.user_id d.cafe_id s then
        .error (.http 409 "Bookmark already exists")
      else
        .ok (BookmarkRepository.create_bookmark d s)

/-- Source `get_bookmarks_by_user`: 404 when the user does not exist, else the
joined, newest-first list. -/
def get_bookmarks_by_user (user_id : OID) (s : Store) :
    Except ServiceError (List BookmarkWithCafe) :=
  match UserRepository.get_user user_id s with
  | none => .error (.http 404 "User not found")
  | some _ => .ok (BookmarkRepository.get_bookmarks_by_user user_id s)

/-- Source `delete_bookmark`: 404 when the bookmark does not exist, else delete. -/
def delete_bookmark (bookmark_id : OID) (s : Store) :
    Except ServiceError (Bool × Store) :=
  match BookmarkRepository.get_bookmark bookmark_id s with
  | none => .error (.http 404 "Bookmark not found")
  | some _ => .ok (BookmarkRepository.delete_bookmark bookmark_id s)

/-- Source `delete_bookmark_by_user_and_cafe`: 404 when no bookmark for the pair
exists, else delete. -/
def delete_bookmark_by_user_and_cafe (user_id cafe_id : OID) (s : Store) :
    Except ServiceError (Bool × Store) :=
  match BookmarkRepository.get_bookmark_by_user_and_cafe user_id cafe_id s with
  | none => .error (.http 404 "Bookmark not found")
  | some _ => .ok (BookmarkRepository.delete_bookmark_by_user_and_cafe user_id cafe_id s)

/-- Source `check_bookmark_exists`. -/
def check_bookmark_exists (user_id cafe_id : OID) (s : Store) : Bool :=
  BookmarkRepository.bookmark_exists user_id cafe_id s

end BookmarkService

/-! ## Serially executed operations

Every mutating service-level operation the transport layer can invoke, and
the store each leaves behind.  An operation that fails before its write
(guard, uniqueness or validation failure) leaves the store as it was, exactly
as the raised exception does in the source. -/

/-- A mutating service-level operation. -/
inductive Op
  | createCafe (d : CafeCreate)
  | updateCafe (id : OID) (u : CafeUpdate)
  | deleteCafe (id : OID)
  | createReview (d : ReviewCreate)
  | updateReview (id : OID) (u : ReviewUpdate)
  | deleteReview (id : OID)
  | addPhoto (id : OID) (p : PhotoCreate)
  | createUser (d : UserCreate)
  | updateUser (id : OID) (u : UserUpdate)
  | deleteUser (id : OID)
  | updateProfilePicture (id : OID) (filename : String)
  | createBookmark (d : BookmarkCreate)
  | deleteBookmark (id : OID)
  | deleteBookmarkByUserAndCafe (u c : OID)
deriving Repr

/-- The store an operation leaves behind when executed serially. -/
def applyOp (op : Op) (s : Store) : Store :=
  match op with
  | .createCafe d =>
    match CafeService.create_cafe d s with
    | .ok (_, s') => s'
    | .error _ => s
  | .updateCafe id u =>
    match CafeService.update_cafe id u s with
    | .ok (_, s') => s'
    | .error _ => s
  | .deleteCafe id => (CafeService.delete_cafe id s).2
  | .createReview d => (ReviewService.create_review d s).2
  | .updateReview id u => (ReviewService.update_review id u s).2
  | .deleteReview id => (ReviewService.delete_review id s).2
  | .addPhoto id p => (ReviewService.add_photo id p s).2
  | .createUser d =>
    match UserService.create_user d s with
    | .ok (_, s') => s'
    | .error _ => s
  | .updateUser id u => (UserService.update_user id u s).2
  | .deleteUser id => (UserService.delete_user id s).2
  | .updateProfilePicture id f => (UserService.update_profile_picture id f s).2
  | .createBookmark d =>
    match BookmarkService.create_bookmark d s with
    | .ok (_, s') => s'
    | .error _ => s
  | .deleteBookmark id =>
    match BookmarkService.delete_bookmark id s with
    | .ok (_, s') => s'
    | .error _ => s
  | .deleteBookmarkByUserAndCafe u c =>
    match BookmarkService.delete_bookmark_by_user_and_cafe u c s with
    | .ok (_, s') => s'
    | .error _ => s

/-- Run a sequence of operations serially. -/
def runOps (ops : List Op) (s : Store) : Store :=
  ops.foldl (fun s op => applyOp op s) s

/-- The store states reachable from the empty database by a serial sequence
of service-level operations. -/
def Reachable (s : Store) : Prop :=
  ∃ ops : List Op, runOps ops Store.initial = s

/-- Whether an operation writes the `bookmarks` collection. -/
def Op.touchesBookmarks : Op → Bool
  | .createBookmark _ => true
  | .deleteBookmark _ => true
  | .deleteBookmarkByUserAndCafe _ _ => true
  | _ => false

/-- Whether an operation writes the `users` collection. -/
def Op.touchesUsers : Op → Bool
  | .createUser _ => true
  | .updateUser _ _ => true
  | .deleteUser _ => true
  | .updateProfilePicture _ _ => true
  | _ => false

/-! ## Invariant predicates and observational equivalences -/

/-- No two stored bookmarks share their `(user_id, cafe_id)` pair. -/
def BookmarkPairUnique (s : Store) : Prop :=
  s.bookmarks.Pairwise fun a b => ¬(a.user_id = b.user_id ∧ a.cafe_id = b.cafe_id)

/-- Well-formedness of the `users` collection: store-assigned ids are
pairwise distinct and below the fresh counter, and no two users share a
name. -/
def UsersWF (s : Store) : Prop :=
  (s.users.map (·.id)).Nodup ∧ (∀ u ∈ s.users, u.id < s.nextId) ∧
    s.users.Pairwise fun a b => a.name ≠ b.name

/-- A user document with its authentication secret blanked out. -/
def scrubbed (u : UserDoc) : UserDoc :=
  { u with password := "" }

/-- Two stores that agree everywhere except possibly on stored passwords. -/
def PwEquiv (s s' : Store) : Prop :=
  s.cafes = s'.cafes ∧ s.reviews = s'.reviews ∧ s.bookmarks = s'.bookmarks ∧
    s.nextId = s'.nextId ∧ s.clock = s'.clock ∧
    List.Forall₂ (fun a b => scrubbed a = scrubbed b) s.users s'.users

/-- Every stored user's `updated_at` lies strictly before the current clock —
true of every state the monotone clock produces, and exactly what makes the
always-refreshed `updated_at` guarantee `modified_count ≥ 1` on a match. -/
def UsersFresh (s : Store) : Prop :=
  ∀ u ∈ s.users, u.updated_at < s.clock

/-- Every stored cafe's `updated_at` lies strictly before the clock. -/
def CafesFresh (s : Store) : Prop :=
  ∀ c ∈ s.cafes, c.updated_at < s.clock

/-- Every stored review's `updated_at` lies strictly before the clock. -/
def ReviewsFresh (s : Store) : Prop :=
  ∀ r ∈ s.reviews, r.updated_at < s.clock

/-! ## Concrete documents and stores used as explicit inputs -/

/-- A throwaway address. -/
def demoAddress : Address :=
  { street := "s", city := "c", state := "st", zip_code := "z", country := "USA" }

/-- A venue document named `"x"` whose address strings contain no dot. -/
def demoCafe : CafeDoc :=
  { id := 0, name := "x", address := demoAddress, lon := 0, lat := 0, phone := none
    website := none, amenities := none, thumbnail_url := none, wifi_access := 0
    outlet_accessibility := 0, average_rating := 1, atmosphere := [], energy_level := []
    study_friendly := [], created_at := 0, updated_at := 0 }

/-- A user document named `"Alice"`. -/
def demoUser : UserDoc :=
  { id := 1, name := "Alice", password := "pw", cafes_visited := 0, average_rating := 0
    profile_picture := none, created_at := 0, updated_at := 0 }

/-- A bookmark of `demoCafe` by `demoUser`. -/
def demoBookmark : BookmarkDoc :=
  { id := 2, user_id := 1, cafe_id := 0, bookmarked_at := 0 }

/-- A small store holding `demoCafe`, `demoUser` and `demoBookmark`. -/
def demoStore : Store :=
  { cafes := [demoCafe], reviews := [], users := [demoUser], bookmarks := [demoBookmark]
    nextId := 3, clock := 1 }

/-- A copy of `demoStore` with a different password for the stored user. -/
def demoStore' : Store :=
  { demoStore with users := [{ demoUser with password := "other" }] }

/-- A review payload referencing venue 0. -/
def demoReview : ReviewCreate :=
  { study_spot_id := 0, user_id := "u", overall_rating := 4, outlet_accessibility := 4
    wifi_quality := 4 }

/-- A review payload whose referenced venue (7) and user (`"ghost"`) exist
nowhere. -/
def ghostReview : ReviewCreate :=
  { study_spot_id := 7, user_id := "ghost", overall_rating := 3, outlet_accessibility := 3
    wifi_quality := 3 }

/-- A sparse venue update that sets `name` to the value `demoCafe` already
holds — a no-op on every targeted field. -/
def noopCafeUpdate : CafeUpdate :=
  { name := some "x" }

/-! ## Lemmas about the write primitives -/

theorem deleteFirst_sublist {α : Type} (p : α → Bool) (l : List α) :
    (deleteFirst p l).Sublist l := by
  induction l with
  | nil => simp [deleteFirst]
  | cons x xs ih =>
    by_cases h : p x
    · simp only [deleteFirst, if_pos h]
      exact List.sublist_cons_self x xs
    · simpa [deleteFirst, h] using ih.cons₂ x

theorem mem_updateFirst {α : Type} {p : α → Bool} {f : α → α} {l : List α} {y : α}
    (hy : y ∈ updateFirst p f l) : y ∈ l ∨ ∃ x ∈ l, p x = true ∧ y = f x := by
  induction l with
  | nil => simp [updateFirst] at hy
  | cons a as ih =>
    by_cases h : p a
    · simp [updateFirst, h] at hy
      rcases hy with hy | hy
      · exact Or.inr ⟨a, by simp, h, hy⟩
      · exact Or.inl (List.mem_cons_of_mem a hy)
    · simp [updateFirst, h] at hy
      rcases hy with hy | hy
      · exact Or.inl (by simp [hy])
      · rcases ih hy with h' | ⟨x, hx, hpx, hxy⟩
        · exact Or.inl (List.mem_cons_of_mem a h')
        · exact Or.inr ⟨x, List.mem_cons_of_mem a hx, hpx, hxy⟩

theorem map_updateFirst {α β : Type} (p : α → Bool) (f : α → α) (g : α → β)
    (hg : ∀ x, g (f x) = g x) (l : List α) :
    (updateFirst p f l).map g = l.map g := by
  induction l with
  | nil => simp [updateFirst]
  | cons a as ih =>
    by_cases h : p a
    · simp [updateFirst, h, hg]
    · simp [updateFirst, h, ih]

theorem updateFirst_eq_of_find?_none {α : Type} {p : α → Bool} {f : α → α} {l : List α}
    (h : l.find? p = none) : updateFirst p f l = l := by
  induction l with
  | nil => rfl
  | cons a as ih =>
    rw [List.find?_cons] at h
    by_cases hp : p a
    · simp [hp] at h
    · simp [hp] at h
      simp [updateFirst, hp, ih (List.find?_eq_none.mpr fun x hx => by simp [h x hx])]

theorem find?_updateFirst {α : Type} {p : α → Bool} (f : α → α) {l : List α} {x : α}
    (hfind : l.find? p = some x) (hf : ∀ y, p (f y) = p y) :
    (updateFirst p f l).find? p = some (f x) := by
  induction l with
  | nil => simp at hfind
  | cons a as ih =>
    rw [List.find?_cons] at hfind
    by_cases hp : p a
    · simp [hp] at hfind
      subst hfind
      simp [updateFirst, hp, List.find?_cons, hf]
    · simp [hp] at hfind
      simp [updateFirst, hp, List.find?_cons, ih hfind]

theorem pairwise_updateFirst_of_preserve {α : Type} {R : α → α → Prop}
    {p : α → Bool} {f : α → α} {l : List α} (hl : l.Pairwise R)
    (h₁ : ∀ x y, R x y → R (f x) y) (h₂ : ∀ x y, R x y → R x (f y)) :
    (updateFirst p f l).Pairwise R := by
  induction l with
  | nil => simp [updateFirst]
  | cons a as ih =>
    rcases List.pairwise_cons.mp hl with ⟨ha, has⟩
    by_cases h : p a
    · simp only [updateFirst, if_pos h]
      exact List.pairwise_cons.mpr ⟨fun y hy => h₁ a y (ha y hy), has⟩
    · simp only [updateFirst, if_neg h]
      refine List.pairwise_cons.mpr ⟨?_, ih has⟩
      intro y hy
      rcases mem_updateFirst hy with hy' | ⟨x, hx, _, hxy⟩
      · exact ha y hy'
      · exact hxy ▸ h₂ a x (ha x hx)

theorem countP_deleteFirst_eq_zero {α : Type} {p : α → Bool} {l : List α}
    (h : l.countP p ≤ 1) : (deleteFirst p l).countP p = 0 := by
  induction l with
  | nil => simp [deleteFirst]
  | cons a as ih =>
    by_cases hp : p a
    · simp only [deleteFirst, if_pos hp]
      rw [List.countP_cons_of_pos _ _ hp] at h
      omega
    · simp only [deleteFirst, if_neg hp]
      rw [List.countP_cons_of_neg _ _ hp] at h
      rw [List.countP_cons_of_neg _ _ hp]
      exact ih h

/-- Operations that do not write `bookmarks` leave it unchanged. -/
theorem applyOp_bookmarks (op : Op) (s : Store) (h : op.touchesBookmarks = false) :
    (applyOp op s).bookmarks = s.bookmarks := by
  cases op with
  | createCafe d =>
    by_cases hv : CafeService.validate_coordinates d.lon d.lat <;>
      simp [applyOp, CafeService.create_cafe, hv, CafeRepository.create_cafe]
  | updateCafe id u =>
    cases hg : CafeRepository.get_cafe id s <;>
      simp [applyOp, CafeService.update_cafe, hg, CafeRepository.update_cafe] <;>
      rcases u.location with _ | ⟨lon, lat⟩ <;>
      simp [CafeRepository.update_cafe] <;>
      by_cases hv : CafeService.validate_coordinates lon lat <;>
      simp [hv]
  | deleteCafe id => simp [applyOp, CafeService.delete_cafe, CafeRepository.delete_cafe]
  | createReview d =>
    simp [applyOp, ReviewService.create_review, ReviewService.create_review_with,
      ReviewRepository.create_review, ReviewService.attemptRecompute,
      ReviewService.update_cafe_average_rating_missing]
  | updateReview id u =>
    cases hg : ReviewRepository.get_review id s <;>
      simp [applyOp, ReviewService.update_review, ReviewService.update_review_with, hg,
        ReviewRepository.update_review, ReviewService.attemptRecompute,
        ReviewService.update_cafe_average_rating_missing] <;>
      split <;> simp
  | deleteReview id =>
    cases hg : ReviewRepository.get_review id s <;>
      simp [applyOp, ReviewService.delete_review, ReviewService.delete_review_with, hg,
        ReviewRepository.delete_review, ReviewService.attemptRecompute,
        ReviewService.update_cafe_average_rating_missing] <;>
      split <;> simp
  | addPhoto id p =>
    cases hg : ReviewRepository.get_review id s <;>
      simp [applyOp, ReviewService.add_photo, hg, ReviewRepository.add_photo]
  | createUser d =>
    by_cases hn : s.users.any (·.name == d.name) <;>
      simp [applyOp, UserService.create_user, UserRepository.create_user, hn, Except.map]
  | updateUser id u =>
    by_cases he : UserService.UserUpdate.isEmptyDict u <;>
      simp [applyOp, UserService.update_user, he, UserRepository.update_user] <;>
      split <;> simp
  | deleteUser id =>
    simp [applyOp, UserService.delete_user, UserRepository.delete_user]
  | updateProfilePicture id f =>
    simp [applyOp, UserService.update_profile_picture, UserRepository.update_profile_picture]
  | createBookmark d => simp [Op.touchesBookmarks] at h
  | deleteBookmark id => simp [Op.touchesBookmarks] at h
  | deleteBookmarkByUserAndCafe a b => simp [Op.touchesBookmarks] at h

/-- Operations that do not write `users` leave it unchanged. -/
theorem applyOp_users (op : Op) (s : Store) (h : op.touchesUsers = false) :
    (applyOp op s).users = s.users := by
  cases op with
  | createCafe d =>
    by_cases hv : CafeService.validate_coordinates d.lon d.lat <;>
      simp [applyOp, CafeService.create_cafe, hv, CafeRepository.create_cafe]
  | updateCafe id u =>
    cases hg : CafeRepository.get_cafe id s <;>
      simp [applyOp, CafeService.update_cafe, hg, CafeRepository.update_cafe] <;>
      rcases u.location with _ | ⟨lon, lat⟩ <;>
      simp [CafeRepository.update_cafe] <;>
      by_cases hv : CafeService.validate_coordinates lon lat <;>
      simp [hv]
  | deleteCafe id => simp [applyOp, CafeService.delete_cafe, CafeRepository.delete_cafe]
  | createReview d =>
    simp [applyOp, ReviewService.create_review, ReviewService.create_review_with,
      ReviewRepository.create_review, ReviewService.attemptRecompute,
      ReviewService.update_cafe_average_rating_missing]
  | updateReview id u =>
    cases hg : ReviewRepository.get_review id s <;>
      simp [applyOp, ReviewService.update_review, ReviewService.update_review_with, hg,
        ReviewRepository.update_review, ReviewService.attemptRecompute,
        ReviewService.update_cafe_average_rating_missing] <;>
      split <;> simp
  | deleteReview id =>
    cases hg : ReviewRepository.get_review id s <;>
      simp [applyOp, ReviewService.delete_review, ReviewService.delete_review_with, hg,
        ReviewRepository.delete_review, ReviewService.attemptRecompute,
        ReviewService.update_cafe_average_rating_missing] <;>
      split <;> simp
  | addPhoto id p =>
    cases hg : ReviewRepository.get_review id s <;>
      simp [applyOp, ReviewService.add_photo, hg, ReviewRepository.add_photo]
  | createUser d => simp [Op.touchesUsers] at h
  | updateUser id u => simp [Op.touchesUsers] at h
  | deleteUser id => simp [Op.touchesUsers] at h
  | updateProfilePicture id f => simp [Op.touchesUsers] at h
  | createBookmark d =>
    rcases hu : UserRepository.get_user d.user_id s with _ | u <;>
      rcases hc : CafeRepository.get_cafe d.cafe_id s with _ | c <;>
      simp [applyOp, BookmarkService.create_bookmark, hu, hc,
        BookmarkRepository.create_bookmark] <;>
      by_cases hb : BookmarkRepository.bookmark_exists d.user_id d.cafe_id s <;>
      simp [hb]
  | deleteBookmark id =>
    cases hg : BookmarkRepository.get_bookmark id s <;>
      simp [applyOp, BookmarkService.delete_bookmark, hg, BookmarkRepository.delete_bookmark]
  | deleteBookmarkByUserAndCafe a b =>
    cases hg : BookmarkRepository.get_bookmark_by_user_and_cafe a b s <;>
      simp [applyOp, BookmarkService.delete_bookmark_by_user_and_cafe, hg,
        BookmarkRepository.delete_bookmark_by_user_and_cafe]

/-- Every operation leaves the fresh-id counter where it was or advances it. -/
theorem applyOp_nextId_le (op : Op) (s : Store) : s.nextId ≤ (applyOp op s).nextId := by
  cases op with
  | createCafe d =>
    by_cases hv : CafeService.validate_coordinates d.lon d.lat <;>
      simp [applyOp, CafeService.create_cafe, hv, CafeRepository.create_cafe]
  | updateCafe id u =>
    cases hg : CafeRepository.get_cafe id s <;>
      simp [applyOp, CafeService.update_cafe, hg, CafeRepository.update_cafe] <;>
      rcases u.location with _ | ⟨lon, lat⟩ <;>
      simp [CafeRepository.update_cafe] <;>
      by_cases hv : CafeService.validate_coordinates lon lat <;>
      simp [hv]
  | deleteCafe id => simp [applyOp, CafeService.delete_cafe, CafeRepository.delete_cafe]
  | createReview d =>
    simp [applyOp, ReviewService.create_review, ReviewService.create_review_with,
      ReviewRepository.create_review, ReviewService.attemptRecompute,
      ReviewService.update_cafe_average_rating_missing]
  | updateReview id u =>
    cases hg : ReviewRepository.get_review id s <;>
      simp [applyOp, ReviewService.update_review, ReviewService.update_review_with, hg,
        ReviewRepository.update_review, ReviewService.attemptRecompute,
        ReviewService.update_cafe_average_rating_missing] <;>
      split <;> simp
  | deleteReview id =>
    cases hg : ReviewRepository.get_review id s <;>
      simp [applyOp, ReviewService.delete_review, ReviewService.delete_review_with, hg,
        ReviewRepository.delete_review, ReviewService.attemptRecompute,
        ReviewService.update_cafe_average_rating_missing] <;>
      split <;> simp
  | addPhoto id p =>
    cases hg : ReviewRepository.get_review id s <;>
      simp [applyOp, ReviewService.add_photo, hg, ReviewRepository.add_photo]
  | createUser d =>
    by_cases hn : s.users.any (·.name == d.name) <;>
      simp [applyOp, UserService.create_user, UserRepository.create_user, hn, Except.map]
  | updateUser id u =>
    by_cases he : UserService.UserUpdate.isEmptyDict u <;>
      simp [applyOp, UserService.update_user, he, UserRepository.update_user] <;>
      split <;> simp
  | deleteUser id =>
    simp [applyOp, UserService.delete_user, UserRepository.delete_user]
  | updateProfilePicture id f =>
    simp [applyOp, UserService.update_profile_picture, UserRepository.update_profile_picture]
  | createBookmark d =>
    rcases hu : UserRepository.get_user d.user_id s with _ | u <;>
      rcases hc : CafeRepository.get_cafe d.cafe_id s with _ | c <;>
      simp [applyOp, BookmarkService.create_bookmark, hu, hc,
        BookmarkRepository.create_bookmark] <;>
      by_cases hb : BookmarkRepository.bookmark_exists d.user_id d.cafe_id s <;>
      simp [hb]
  | deleteBookmark id =>
    cases hg : BookmarkRepository.get_bookmark id s <;>
      simp [applyOp, BookmarkService.delete_bookmark, hg, BookmarkRepository.delete_bookmark]
  | deleteBookmarkByUserAndCafe a b =>
    cases hg : BookmarkRepository.get_bookmark_by_user_and_cafe a b s <;>
      simp [applyOp, BookmarkService.delete_bookmark_by_user_and_cafe, hg,
        BookmarkRepository.delete_bookmark_by_user_and_cafe]

theorem length_filter_mono {α : Type} {p q : α → Bool} (l : List α)
    (h : ∀ a, p a = true → q a = true) :
    (l.filter p).length ≤ (l.filter q).length := by
  induction l with
  | nil => simp
  | cons a as ih =>
    by_cases hp : p a
    · rw [List.filter_cons_of_pos hp, List.filter_cons_of_pos (h a hp)]
      simpa using ih
    · rw [List.filter_cons_of_neg hp]
      by_cases hq : q a
      · rw [List.filter_cons_of_pos hq]
        simp only [List.length_cons]
        omega
      · rw [List.filter_cons_of_neg hq]
        exact ih

/-! ## Invariant: at most one bookmark per (user, venue) pair -/

theorem bookmarkPairUnique_applyOp (op : Op) (s : Store) (h : BookmarkPairUnique s) :
    BookmarkPairUnique (applyOp op s) := by
  cases ht : op.touchesBookmarks
  · rw [BookmarkPairUnique, applyOp_bookmarks op s ht]
    exact h
  · cases op with
    | createBookmark d =>
      rcases hu : UserRepository.get_user d.user_id s with _ | u
      · simp only [applyOp, BookmarkService.create_bookmark, hu]
        exact h
      · rcases hc : CafeRepository.get_cafe d.cafe_id s with _ | c
        · simp only [applyOp, BookmarkService.create_bookmark, hu, hc]
          exact h
        · by_cases hb : BookmarkRepository.bookmark_exists d.user_id d.cafe_id s
          · simp only [applyOp, BookmarkService.create_bookmark, hu, hc, if_pos hb]
            exact h
          · simp only [applyOp, BookmarkService.create_bookmark, hu, hc, if_neg hb,
              BookmarkRepository.create_bookmark, BookmarkPairUnique]
            refine List.pairwise_append.mpr ⟨h, List.pairwise_singleton _ _, ?_⟩
            intro a ha b hb'
            simp only [List.mem_singleton] at hb'
            subst hb'
            rintro ⟨h1, h2⟩
            apply hb
            rw [BookmarkRepository.bookmark_exists]
            simp only [decide_eq_true_eq]
            exact List.countP_pos_iff.mpr ⟨a, ha, by simp_all⟩
    | deleteBookmark id =>
      cases hg : BookmarkRepository.get_bookmark id s
      · simp only [applyOp, BookmarkService.delete_bookmark, hg]
        exact h
      · simp only [applyOp, BookmarkService.delete_bookmark, hg,
          BookmarkRepository.delete_bookmark, BookmarkPairUnique]
        exact h.sublist (deleteFirst_sublist _ _)
    | deleteBookmarkByUserAndCafe a b =>
      cases hg : BookmarkRepository.get_bookmark_by_user_and_cafe a b s
      · simp only [applyOp, BookmarkService.delete_bookmark_by_user_and_cafe, hg]
        exact h
      · simp only [applyOp, BookmarkService.delete_bookmark_by_user_and_cafe, hg,
          BookmarkRepository.delete_bookmark_by_user_and_cafe, BookmarkPairUnique]
        exact h.sublist (deleteFirst_sublist _ _)
    | createCafe d => simp [Op.touchesBookmarks] at ht
    | updateCafe id u => simp [Op.touchesBookmarks] at ht
    | deleteCafe id => simp [Op.touchesBookmarks] at ht
    | createReview d => simp [Op.touchesBookmarks] at ht
    | updateReview id u => simp [Op.touchesBookmarks] at ht
    | deleteReview id => simp [Op.touchesBookmarks] at ht
    | addPhoto id p => simp [Op.touchesBookmarks] at ht
    | createUser d => simp [Op.touchesBookmarks] at ht
    | updateUser id u => simp [Op.touchesBookmarks] at ht
    | deleteUser id => simp [Op.touchesBookmarks] at ht
    | updateProfilePicture id f => simp [Op.touchesBookmarks] at ht

theorem bookmarkPairUnique_runOps (ops : List Op) (s : Store) (h : BookmarkPairUnique s) :
    BookmarkPairUnique (runOps ops s) := by
  induction ops generalizing s with
  | nil => exact h
  | cons op ops ih => exact ih _ (bookmarkPairUnique_applyOp op s h)

theorem bookmarkPairUnique_reachable (s : Store) (h : Reachable s) : BookmarkPairUnique s := by
  rcases h with ⟨ops, rfl⟩
  exact bookmarkPairUnique_runOps ops Store.initial (by simp [Store.initial, BookmarkPairUnique])

/-! ## Invariant: display names are unique across users -/

/-- Renaming the (unique) user with id `uid` to `n` keeps names pairwise
distinct, provided no *other* user already holds `n` — the exact check
`update_user` performs. -/
theorem pairwise_name_ne_updateFirst (l : List UserDoc) (uid : OID) (f : UserDoc → UserDoc)
    (n : String) (hname : ∀ x, (f x).name = n)
    (hnodup : (l.map (·.id)).Nodup)
    (hpw : l.Pairwise fun a b => a.name ≠ b.name)
    (hguard : ∀ d ∈ l, d.name = n → d.id = uid) :
    (updateFirst (·.id == uid) f l).Pairwise fun a b => a.name ≠ b.name := by
  induction l with
  | nil => simp [updateFirst]
  | cons a as ih =>
    rcases List.pairwise_cons.mp hpw with ⟨ha, has⟩
    rw [List.map_cons, List.nodup_cons] at hnodup
    by_cases hp : a.id == uid
    · simp only [updateFirst, if_pos hp]
      refine List.pairwise_cons.mpr ⟨?_, has⟩
      intro y hy
      rw [hname a]
      intro hyn
      have hyid : y.id = uid := hguard y (List.mem_cons_of_mem a hy) hyn.symm
      have haid : a.id = uid := beq_iff_eq.mp hp
      exact hnodup.1 (List.mem_map.mpr ⟨y, hy, by rw [hyid, haid]⟩)
    · simp only [updateFirst, if_neg hp]
      refine List.pairwise_cons.mpr ⟨?_,
        ih hnodup.2 has fun d hd hdn => hguard d (List.mem_cons_of_mem a hd) hdn⟩
      intro y hy
      rcases mem_updateFirst hy with hy' | ⟨x, hx, _, hxy⟩
      · exact ha y hy'
      · rw [hxy, hname x]
        intro han
        exact hp (beq_iff_eq.mpr (hguard a (List.mem_cons_self a as) han))

theorem usersWF_applyOp (op : Op) (s : Store) (h : UsersWF s) : UsersWF (applyOp op s) := by
  rcases h with ⟨hnodup, hbound, hnames⟩
  cases ht : op.touchesUsers
  · refine ⟨?_, ?_, ?_⟩ <;> rw [applyOp_users op s ht]
    · exact hnodup
    · exact fun u hu => lt_of_lt_of_le (hbound u hu) (applyOp_nextId_le op s)
    · exact hnames
  · cases op with
    | createUser d =>
      by_cases hn : s.users.any (·.name == d.name)
      · have hs : applyOp (Op.createUser d) s = s := by
          simp [applyOp, UserService.create_user, UserRepository.create_user, hn, Except.map]
        rw [hs]
        exact ⟨hnodup, hbound, hnames⟩
      · have hs : applyOp (Op.createUser d) s =
            { s with
              users := s.users ++
                [{ id := s.nextId, name := d.name, password := d.password
                   cafes_visited := d.cafes_visited, average_rating := d.average_rating
                   profile_picture := none, created_at := s.clock, updated_at := s.clock }]
              nextId := s.nextId + 1, clock := s.clock + 1 } := by
          simp [applyOp, UserService.create_user, UserRepository.create_user, hn, Except.map]
        rw [hs]
        refine ⟨?_, ?_, ?_⟩
        · rw [List.map_append, List.nodup_append]
          refine ⟨hnodup, List.nodup_singleton _, ?_⟩
          intro x hx
          simp only [List.map_cons, List.map_nil, List.mem_singleton]
          rcases List.mem_map.mp hx with ⟨u, hu, rfl⟩
          exact Nat.ne_of_lt (hbound u hu)
        · intro u hu
          rcases List.mem_append.mp hu with hu' | hu'
          · exact Nat.lt_succ_of_lt (hbound u hu')
          · simp only [List.mem_singleton] at hu'
            subst hu'
            exact Nat.lt_succ_self _
        · refine List.pairwise_append.mpr ⟨hnames, List.pairwise_singleton _ _, ?_⟩
          intro a ha b hb
          simp only [List.mem_singleton] at hb
          subst hb
          intro hab
          exact hn (List.any_eq_true.mpr ⟨a, ha, by simpa using hab⟩)
    | updateUser id u =>
      by_cases he : UserService.UserUpdate.isEmptyDict u
      · have hs : applyOp (Op.updateUser id u) s = s := by
          simp [applyOp, UserService.update_user, he]
        rw [hs]
        exact ⟨hnodup, hbound, hnames⟩
      · have step : ∀ hs : applyOp (Op.updateUser id u) s =
            { s with
              users := updateFirst (fun x => x.id == id)
                (UserRepository.applySet u s.clock) s.users
              clock := s.clock + 1 },
            (s.users.Pairwise fun a b => a.name ≠ b.name) →
            ((updateFirst (fun x => x.id == id) (UserRepository.applySet u s.clock)
                s.users).Pairwise fun a b => a.name ≠ b.name) →
            UsersWF (applyOp (Op.updateUser id u) s) := by
          intro hs _ hpw'
          rw [hs]
          refine ⟨?_, ?_, hpw'⟩
          · rw [map_updateFirst (fun x => x.id == id) (UserRepository.applySet u s.clock)
              (fun x => x.id) (fun x => rfl) s.users]
            exact hnodup
          · intro y hy
            rcases mem_updateFirst hy with hy' | ⟨x, hx, _, rfl⟩
            · exact hbound y hy'
            · exact hbound x hx
        rcases hun : u.name with _ | n
        · refine step ?_ hnames ?_
          · simp [applyOp, UserService.update_user, he, UserRepository.update_user, hun]
          · refine pairwise_updateFirst_of_preserve hnames ?_ ?_ <;>
              intro x y hxy <;>
              simpa [UserRepository.applySet, hun] using hxy
        · by_cases hc : s.users.any fun d => d.name == n && d.id != id
          · have hs : applyOp (Op.updateUser id u) s = s := by
              simp [applyOp, UserService.update_user, he, UserRepository.update_user, hun, hc]
            rw [hs]
            exact ⟨hnodup, hbound, hnames⟩
          · refine step ?_ hnames ?_
            · simp [applyOp, UserService.update_user, he, UserRepository.update_user, hun, hc]
            · refine pairwise_name_ne_updateFirst s.users id _ n
                (fun x => by simp [UserRepository.applySet, hun]) hnodup hnames ?_
              intro d hd hdn
              by_contra hne
              exact hc (List.any_eq_true.mpr ⟨d, hd, by simp [hdn, hne]⟩)
    | deleteUser id =>
      have hs : applyOp (Op.deleteUser id) s =
          { s with users := deleteFirst (fun x => x.id == id) s.users } := by
        simp [applyOp, UserService.delete_user, UserRepository.delete_user]
      rw [hs]
      refine ⟨?_, ?_, ?_⟩
      · exact ((deleteFirst_sublist _ _).map _).nodup hnodup
      · exact fun y hy => hbound y ((deleteFirst_sublist _ _).mem hy)
      · exact hnames.sublist (deleteFirst_sublist _ _)
    | updateProfilePicture id f =>
      have hs : applyOp (Op.updateProfilePicture id f) s =
          { s with
            users := updateFirst (fun x => x.id == id)
              (fun d => { d with profile_picture := some f, updated_at := s.clock }) s.users
            clock := s.clock + 1 } := by
        simp [applyOp, UserService.update_profile_picture, UserRepository.update_profile_picture]
      rw [hs]
      refine ⟨?_, ?_, ?_⟩
      · rw [map_updateFirst (fun x => x.id == id)
          (fun d => { d with profile_picture := some f, updated_at := s.clock })
          (fun x => x.id) (fun x => rfl) s.users]
        exact hnodup
      · intro y hy
        rcases mem_updateFirst hy with hy' | ⟨x, hx, _, rfl⟩
        · exact hbound y hy'
        · exact hbound x hx
      · exact pairwise_updateFirst_of_preserve hnames (fun x y hxy => hxy) (fun x y hxy => hxy)
    | createCafe d => simp [Op.touchesUsers] at ht
    | updateCafe id u => simp [Op.touchesUsers] at ht
    | deleteCafe id => simp [Op.touchesUsers] at ht
    | createReview d => simp [Op.touchesUsers] at ht
    | updateReview id u => simp [Op.touchesUsers] at ht
    | deleteReview id => simp [Op.touchesUsers] at ht
    | addPhoto id p => simp [Op.touchesUsers] at ht
    | createBookmark d => simp [Op.touchesUsers] at ht
    | deleteBookmark id => simp [Op.touchesUsers] at ht
    | deleteBookmarkByUserAndCafe a b => simp [Op.touchesUsers] at ht

theorem usersWF_runOps (ops : List Op) (s : Store) (h : UsersWF s) :
    UsersWF (runOps ops s) := by
  induction ops generalizing s with
  | nil => exact h
  | cons op ops ih => exact ih _ (usersWF_applyOp op s h)

theorem usersWF_reachable (s : Store) (h : Reachable s) : UsersWF s := by
  rcases h with ⟨ops, rfl⟩
  exact usersWF_runOps ops Store.initial (by simp [Store.initial, UsersWF])

/-! ## The `$regex` fragment versus literal substring containment -/

theorem dotMatchesStart_iff_lower (p : List Char) (hp : '.' ∉ p) (t : List Char) :
    dotMatchesStart p t = true ↔ (p.map Char.toLower) <+: (t.map Char.toLower) := by
  induction p generalizing t with
  | nil => simp [dotMatchesStart]
  | cons a ps ih =>
    cases t with
    | nil => simp [dotMatchesStart]
    | cons c cs =>
      have ha : a ≠ '.' := fun h => hp (by simp [h])
      have hps : '.' ∉ ps := fun h => hp (List.mem_cons_of_mem a h)
      simp only [dotMatchesStart, List.map_cons, List.cons_prefix_cons, Bool.and_eq_true,
        Bool.or_eq_true, beq_iff_eq]
      constructor
      · rintro ⟨h1 | h1, h2⟩
        · exact absurd h1 ha
        · exact ⟨h1, (ih hps cs).mp h2⟩
      · rintro ⟨h1, h2⟩
        exact ⟨Or.inr h1, (ih hps cs).mpr h2⟩

/-- On patterns free of the `.` wildcard — the only regex metacharacter in the
modelled fragment — the store's case-insensitive `$regex` match is exactly
case-insensitive literal-substring containment. -/
theorem dotRegexMatchI_eq_substringMatchI (pat s : String) (hp : '.' ∉ pat.toList) :
    dotRegexMatchI pat s = substringMatchI pat s := by
  rw [dotRegexMatchI, substringMatchI, Bool.eq_iff_iff]
  simp only [List.any_eq_true, decide_eq_true_eq]
  constructor
  · rintro ⟨t, ht, hm⟩
    rw [List.mem_tails] at ht
    rw [dotMatchesStart_iff_lower pat.toList hp t] at hm
    exact List.infix_iff_prefix_suffix.mpr ⟨t.map Char.toLower, hm, ht.map _⟩
  · intro h
    rcases List.infix_iff_prefix_suffix.mp h with ⟨T, hpre, hsuf⟩
    have hT : T ∈ (s.toList.map Char.toLower).tails := (List.mem_tails _ _).mpr hsuf
    rw [List.map_tails] at hT
    rcases List.mem_map.mp hT with ⟨t, ht, rfl⟩
    exact ⟨t, ht, (dotMatchesStart_iff_lower pat.toList hp t).mpr hpre⟩

/-- The fragment matcher satisfies the engine's documented literal behaviour:
on a pattern free of every regex metacharacter it is exactly case-insensitive
literal-substring containment. -/
theorem dotRegexMatchI_on_literal (pat t : String) (hp : isLiteralPattern pat = true) :
    dotRegexMatchI pat t = substringMatchI pat t := by
  refine dotRegexMatchI_eq_substringMatchI pat t fun hdot => ?_
  have := List.all_eq_true.mp hp '.' hdot
  simp [pcreMetachars] at this

/-! ## Congruence along password-scrubbing -/

theorem to_user_response_scrub_congr {a b : UserDoc} (h : scrubbed a = scrubbed b) :
    UserService.to_user_response a = UserService.to_user_response b := by
  have := congrArg UserService.to_user_response h
  exact this

theorem beq_id_scrub_congr {a b : UserDoc} (h : scrubbed a = scrubbed b) (uid : OID) :
    (a.id == uid) = (b.id == uid) := by
  have hid : a.id = b.id := congrArg (fun x => x.id) h
  rw [hid]

theorem forall₂_map_eq {α β : Type} {R : α → α → Prop} {l l' : List α} (g : α → β)
    (h : List.Forall₂ R l l') (hg : ∀ a b, R a b → g a = g b) : l.map g = l'.map g := by
  induction h with
  | nil => rfl
  | cons h1 h2 ih =>
    rename_i a b l₁ l₂
    simp only [List.map_cons, hg a b h1, ih]

theorem forall₂_any_eq {α : Type} {R : α → α → Prop} {l l' : List α} (p : α → Bool)
    (h : List.Forall₂ R l l') (hp : ∀ a b, R a b → p a = p b) : l.any p = l'.any p := by
  induction h with
  | nil => rfl
  | cons h1 h2 ih =>
    rename_i a b l₁ l₂
    simp only [List.any_cons, hp a b h1, ih]

theorem forall₂_filter {α : Type} {R : α → α → Prop} {l l' : List α} (p : α → Bool)
    (h : List.Forall₂ R l l') (hp : ∀ a b, R a b → p a = p b) :
    List.Forall₂ R (l.filter p) (l'.filter p) := by
  induction h with
  | nil => exact .nil
  | cons h1 h2 ih =>
    rename_i a b l₁ l₂
    rw [List.filter_cons, List.filter_cons, ← hp a b h1]
    by_cases hpa : p a
    · rw [if_pos hpa, if_pos hpa]
      exact .cons h1 ih
    · rw [if_neg hpa, if_neg hpa]
      exact ih

theorem forall₂_find?_map {α β : Type} {R : α → α → Prop} {l l' : List α}
    (g : α → β) (p : α → Bool) (h : List.Forall₂ R l l')
    (hg : ∀ a b, R a b → g a = g b) (hp : ∀ a b, R a b → p a = p b) :
    (l.find? p).map g = (l'.find? p).map g := by
  induction h with
  | nil => rfl
  | cons h1 h2 ih =>
    rename_i a b l₁ l₂
    rw [List.find?_cons, List.find?_cons, ← hp a b h1]
    by_cases hpa : p a
    · simp [hpa, hg a b h1]
    · simp [hpa, ih]

theorem forall₂_find?_isSome {α : Type} {R : α → α → Prop} {l l' : List α}
    (p : α → Bool) (h : List.Forall₂ R l l') (hp : ∀ a b, R a b → p a = p b) :
    (l.find? p).isSome = (l'.find? p).isSome := by
  induction h with
  | nil => rfl
  | cons h1 h2 ih =>
    rename_i a b l₁ l₂
    rw [List.find?_cons, List.find?_cons, ← hp a b h1]
    by_cases hpa : p a
    · simp [hpa]
    · simp [hpa, ih]

theorem forall₂_updateFirst {α : Type} {R : α → α → Prop} (p : α → Bool) (f : α → α)
    {l l' : List α} (h : List.Forall₂ R l l')
    (hp : ∀ a b, R a b → p a = p b) (hf : ∀ a b, R a b → R (f a) (f b)) :
    List.Forall₂ R (updateFirst p f l) (updateFirst p f l') := by
  induction h with
  | nil => exact .nil
  | cons h1 h2 ih =>
    rename_i a b l₁ l₂
    simp only [updateFirst]
    by_cases hpa : p a
    · rw [if_pos hpa, if_pos (by rw [← hp a b h1]; exact hpa)]
      exact .cons (hf a b h1) h2
    · rw [if_neg hpa, if_neg (by rw [← hp a b h1]; exact hpa)]
      exact .cons h1 ih

/-- When `$set` is guaranteed to change every matched document — the
refreshed `updated_at` does exactly that on fresh-clock stores —
`modified_count` is 1 precisely when the filter matched. -/
theorem modifiedCount_of_changes {α : Type} [DecidableEq α] (p : α → Bool) (f : α → α)
    (l : List α) (hf : ∀ x ∈ l, f x ≠ x) :
    modifiedCount p f l = if (l.find? p).isSome then 1 else 0 := by
  rw [modifiedCount]
  cases hfind : l.find? p with
  | none => simp
  | some x => simp [hf x (List.mem_of_find?_eq_some hfind)]

/-- Because `applySet` always moves `updated_at` to the current clock, on a store
whose documents are strictly older than the clock it never fixes a user
document. -/
theorem applySet_ne_of_fresh (u : UserUpdate) (now : Nat) (x : UserDoc)
    (hx : x.updated_at < now) : UserRepository.applySet u now x ≠ x := by
  intro hcontra
  have := congrArg (fun d => d.updated_at) hcontra
  simp only [UserRepository.applySet] at this
  omega

/-- Scrub-equality is preserved by `applySet`: every field the `$set` writes
is taken from the (shared) update dict or the clock, and the remaining
fields other than `password` agree by hypothesis. -/
theorem applySet_scrub_congr (u : UserUpdate) (now : Nat) {a b : UserDoc}
    (h : scrubbed a = scrubbed b) :
    scrubbed (UserRepository.applySet u now a) = scrubbed (UserRepository.applySet u now b) := by
  have hid : a.id = b.id := congrArg (fun x => x.id) h
  have hname : a.name = b.name := congrArg (fun x => x.name) h
  have hcv : a.cafes_visited = b.cafes_visited := congrArg (fun x => x.cafes_visited) h
  have har : a.average_rating = b.average_rating := congrArg (fun x => x.average_rating) h
  have hpp : a.profile_picture = b.profile_picture := congrArg (fun x => x.profile_picture) h
  have hca : a.created_at = b.created_at := congrArg (fun x => x.created_at) h
  simp only [scrubbed, UserRepository.applySet]
  rw [hid, hname, hcv, har, hpp, hca]

/-! ## Claims -/

/-- C5, counterexample: the claim asserts literal-substring semantics for
*every* query, including ones with regex metacharacters.  The source passes
the raw query to `$regex`, so the engine interprets metacharacters: its
documented behaviour at the pattern `"."` is to match any single character
(`dotRegexMatchI` realises exactly that on this fragment), so the search over
`demoStore` returns `[demoCafe]` (name `"x"`) although `"."` is not a literal
substring of any of its fields — the literal-substring filter returns `[]`. -/
theorem search_cafes_literal_counterexample :
    isBlank "." = false ∧
      dotRegexMatchI "." "x" = true ∧
      CafeService.search_cafes dotRegexMatchI "." demoStore ≠
        .ok (demoStore.cafes.filter fun c =>
          substringMatchI "." c.name || substringMatchI "." c.address.city ||
            substringMatchI "." c.address.street) := by
  refine ⟨by decide, by decide, fun h => ?_⟩
  have h1 : CafeService.search_cafes dotRegexMatchI "." demoStore = .ok [demoCafe] := rfl
  have h2 : (demoStore.cafes.filter fun c =>
      substringMatchI "." c.name || substringMatchI "." c.address.city ||
        substringMatchI "." c.address.street) = [] := rfl
  rw [h1, h2] at h
  simp at h

/-- C5, amended: a blank query is rejected with the 400 before the store is
queried.  A non-blank query returns exactly the venues whose name, city or
street the store's case-insensitive regex engine (`regex`, quantified over —
the engine is the store's, like its spherical metric) matches against the raw
query: metacharacters are interpreted, not escaped.  For a query free of
every regex metacharacter, the engine's documented literal behaviour
(hypothesis `hlit`: a metacharacter-free pattern matches precisely where it
occurs as a case-insensitive literal substring) makes the result exactly the
literal-substring filter. -/
theorem search_cafes_spec (regex : String → String → Bool) (q : String) (s : Store) :
    (isBlank q = true →
      CafeService.search_cafes regex q s
        = .error (.http 400 "Search query cannot be empty")) ∧
    (isBlank q = false →
      CafeService.search_cafes regex q s = .ok (s.cafes.filter fun c =>
        regex q c.name || regex q c.address.city || regex q c.address.street)) ∧
    ((∀ pat t, isLiteralPattern pat = true → regex pat t = substringMatchI pat t) →
      isBlank q = false → isLiteralPattern q = true →
      CafeService.search_cafes regex q s = .ok (s.cafes.filter fun c =>
        substringMatchI q c.name || substringMatchI q c.address.city ||
          substringMatchI q c.address.street)) := by
  refine ⟨fun h => ?_, fun h => ?_, fun hlit h hq => ?_⟩
  · simp [CafeService.search_cafes, h]
  · simp [CafeService.search_cafes, h, CafeRepository.search_cafes]
  · simp only [CafeService.search_cafes, h, Bool.false_eq_true, if_false,
      CafeRepository.search_cafes]
    refine congrArg Except.ok (List.filter_congr fun c _ => ?_)
    rw [hlit q c.name hq, hlit q c.address.city hq, hlit q c.address.street hq]

/-- C5 witness: the amended theorem applied at the metacharacter-free query
`"ab"` over `demoStore`, the engine instantiated with the fragment matcher
(which satisfies the literal-behaviour hypothesis,
`dotRegexMatchI_on_literal`). -/
theorem search_cafes_spec_witness :
    (isBlank "ab" = false ∧ isLiteralPattern "ab" = true) ∧
      CafeService.search_cafes dotRegexMatchI "ab" demoStore
        = .ok (demoStore.cafes.filter fun c =>
          substringMatchI "ab" c.name || substringMatchI "ab" c.address.city ||
            substringMatchI "ab" c.address.street) :=
  ⟨⟨by decide, by decide⟩,
    (search_cafes_spec dotRegexMatchI "ab" demoStore).2.2
      (fun pat t hp => dotRegexMatchI_on_literal pat t hp) (by decide) (by decide)⟩

/-- C6: for valid inputs (longitude in [-180, 180], latitude in [-90, 90],
positive max distance), `find_nearby_cafes` succeeds, never returns a venue
whose distance from the query point (under the store's spherical metric,
abstracted as `dist`) exceeds `max_distance`, returns results ordered
nearest-first, and its result count is monotonically non-decreasing in
`max_distance` over a fixed venue collection. -/
theorem find_nearby_cafes_spec (dist : Rat × Rat → Rat × Rat → Rat)
    (lon lat maxD : Rat) (s : Store)
    (h1 : -180 ≤ lon) (h2 : lon ≤ 180) (h3 : -90 ≤ lat) (h4 : lat ≤ 90) (h5 : 0 < maxD) :
    ∃ l, CafeService.find_nearby_cafes dist lon lat maxD s = .ok l ∧
      (∀ c ∈ l, dist (c.lon, c.lat) (lon, lat) ≤ maxD) ∧
      l.Pairwise (fun a b => dist (a.lon, a.lat) (lon, lat) ≤ dist (b.lon, b.lat) (lon, lat)) ∧
      ∀ maxD', maxD ≤ maxD' →
        ∃ l', CafeService.find_nearby_cafes dist lon lat maxD' s = .ok l' ∧
          l.length ≤ l'.length := by
  have hv : CafeService.validate_coordinates lon lat = true := by
    simp only [CafeService.validate_coordinates, Bool.and_eq_true, decide_eq_true_eq]
    exact ⟨⟨⟨h1, h2⟩, h3⟩, h4⟩
  have hok : ∀ m : Rat, 0 < m → CafeService.find_nearby_cafes dist lon lat m s =
      .ok (CafeRepository.find_nearby_cafes dist lon lat m s) := by
    intro m hm
    simp [CafeService.find_nearby_cafes, hv, not_le.mpr hm]
  refine ⟨CafeRepository.find_nearby_cafes dist lon lat maxD s, hok maxD h5, ?_, ?_, ?_⟩
  · intro c hc
    rw [CafeRepository.find_nearby_cafes, List.mem_mergeSort, List.mem_filter] at hc
    exact of_decide_eq_true hc.2
  · have hs := @List.sorted_mergeSort CafeDoc
      (fun a b : CafeDoc =>
        decide (dist (a.lon, a.lat) (lon, lat) ≤ dist (b.lon, b.lat) (lon, lat)))
      (fun a b c hab hbc => by
        simp only [decide_eq_true_eq] at hab hbc ⊢
        exact le_trans hab hbc)
      (fun a b => by
        simp only [Bool.or_eq_true, decide_eq_true_eq]
        exact le_total _ _)
      (s.cafes.filter fun c => decide (dist (c.lon, c.lat) (lon, lat) ≤ maxD))
    rw [CafeRepository.find_nearby_cafes]
    exact hs.imp fun h => of_decide_eq_true h
  · intro maxD' hle
    refine ⟨CafeRepository.find_nearby_cafes dist lon lat maxD' s,
      hok maxD' (lt_of_lt_of_le h5 hle), ?_⟩
    rw [CafeRepository.find_nearby_cafes, CafeRepository.find_nearby_cafes,
      List.length_mergeSort, List.length_mergeSort]
    refine length_filter_mono s.cafes fun c hc => ?_
    simp only [decide_eq_true_eq] at hc ⊢
    exact le_trans hc hle

/-- C6 witness: the theorem applied at the origin with radius 1 over
`demoStore`, the metric taken constantly 0. -/
theorem find_nearby_cafes_spec_witness :
    ((-180 : Rat) ≤ 0 ∧ (0 : Rat) ≤ 180 ∧ (-90 : Rat) ≤ 0 ∧ (0 : Rat) ≤ 90 ∧ (0 : Rat) < 1) ∧
      ∃ l, CafeService.find_nearby_cafes (fun _ _ => 0) 0 0 1 demoStore = .ok l ∧
        (∀ c ∈ l, (0 : Rat) ≤ 1) ∧
        l.Pairwise (fun _ _ => (0 : Rat) ≤ 0) ∧
        ∀ maxD', (1 : Rat) ≤ maxD' →
          ∃ l', CafeService.find_nearby_cafes (fun _ _ => 0) 0 0 maxD' demoStore = .ok l' ∧
            l.length ≤ l'.length :=
  ⟨⟨by norm_num, by norm_num, by norm_num, by norm_num, by norm_num⟩,
    find_nearby_cafes_spec (fun _ _ => 0) 0 0 1 demoStore
      (by norm_num) (by norm_num) (by norm_num) (by norm_num) (by norm_num)⟩

/-- C8: `delete_cafe` removes only the venue document — reviews, bookmarks
and users are untouched — and afterwards `get_bookmarks_by_user` still returns
the dangling bookmark (in a newest-first list) with a `none` venue summary
instead of failing.  The count hypothesis (at most one stored venue under the
bookmark's venue id) holds in every reachable store, where ids are unique. -/
theorem delete_cafe_frame_and_null_join (s : Store) (b : BookmarkDoc)
    (hb : b ∈ s.bookmarks)
    (hcount : s.cafes.countP (·.id == b.cafe_id) ≤ 1)
    (huser : ∃ u, UserRepository.get_user b.user_id s = some u) :
    (CafeService.delete_cafe b.cafe_id s).2.reviews = s.reviews ∧
    (CafeService.delete_cafe b.cafe_id s).2.bookmarks = s.bookmarks ∧
    (CafeService.delete_cafe b.cafe_id s).2.users = s.users ∧
    ∃ l, BookmarkService.get_bookmarks_by_user b.user_id
        (CafeService.delete_cafe b.cafe_id s).2 = .ok l ∧
      ({ id := b.id, user_id := b.user_id, cafe_id := b.cafe_id
         bookmarked_at := b.bookmarked_at, cafe := none } : BookmarkWithCafe) ∈ l ∧
      l.Pairwise fun x y => y.bookmarked_at ≤ x.bookmarked_at := by
  obtain ⟨u, hu⟩ := huser
  refine ⟨rfl, rfl, rfl, ?_⟩
  refine ⟨BookmarkRepository.get_bookmarks_by_user b.user_id
    (CafeService.delete_cafe b.cafe_id s).2, ?_, ?_, ?_⟩
  · simp only [BookmarkService.get_bookmarks_by_user]
    rw [show UserRepository.get_user b.user_id (CafeService.delete_cafe b.cafe_id s).2
      = some u from hu]
  · have hbf : b ∈ s.bookmarks.filter (·.user_id == b.user_id) :=
      List.mem_filter.mpr ⟨hb, by simp⟩
    have hfind : (CafeService.delete_cafe b.cafe_id s).2.cafes.find? (·.id == b.cafe_id)
        = none := by
      refine List.find?_eq_none.mpr fun x hx => ?_
      have h0 : ((deleteFirst (·.id == b.cafe_id) s.cafes).countP (·.id == b.cafe_id)) = 0 :=
        countP_deleteFirst_eq_zero hcount
      exact List.countP_eq_zero.mp h0 x hx
    rw [BookmarkRepository.get_bookmarks_by_user]
    refine List.mem_map.mpr ⟨b, List.mem_mergeSort.mpr hbf, ?_⟩
    rw [hfind]
    rfl
  · rw [BookmarkRepository.get_bookmarks_by_user]
    refine List.pairwise_map.mpr ?_
    have hs := @List.sorted_mergeSort BookmarkDoc
      (fun a b : BookmarkDoc => decide (b.bookmarked_at ≤ a.bookmarked_at))
      (fun a b c hab hbc => by
        simp only [decide_eq_true_eq] at hab hbc ⊢
        exact le_trans hbc hab)
      (fun a b => by
        simp only [Bool.or_eq_true, decide_eq_true_eq]
        exact (le_total _ _).symm)
      (s.bookmarks.filter (·.user_id == b.user_id))
    exact hs.imp fun h => of_decide_eq_true h

/-- C8 witness: the theorem applied to `demoBookmark` in `demoStore`. -/
theorem delete_cafe_frame_and_null_join_witness :
    (demoBookmark ∈ demoStore.bookmarks ∧
      demoStore.cafes.countP (·.id == demoBookmark.cafe_id) ≤ 1 ∧
      ∃ u, UserRepository.get_user demoBookmark.user_id demoStore = some u) ∧
    ((CafeService.delete_cafe demoBookmark.cafe_id demoStore).2.reviews = demoStore.reviews ∧
      (CafeService.delete_cafe demoBookmark.cafe_id demoStore).2.bookmarks =
        demoStore.bookmarks ∧
      (CafeService.delete_cafe demoBookmark.cafe_id demoStore).2.users = demoStore.users ∧
      ∃ l, BookmarkService.get_bookmarks_by_user demoBookmark.user_id
          (CafeService.delete_cafe demoBookmark.cafe_id demoStore).2 = .ok l ∧
        ({ id := demoBookmark.id, user_id := demoBookmark.user_id
           cafe_id := demoBookmark.cafe_id, bookmarked_at := demoBookmark.bookmarked_at
           cafe := none } : BookmarkWithCafe) ∈ l ∧
        l.Pairwise fun x y => y.bookmarked_at ≤ x.bookmarked_at) :=
  ⟨⟨by decide, by decide, ⟨demoUser, by decide⟩⟩,
    delete_cafe_frame_and_null_join demoStore demoBookmark (by decide) (by decide)
      ⟨demoUser, by decide⟩⟩

/-- C3: `create_bookmark`'s guards — a missing user or venue fails with the
integrity 404 raised before any write, an existing bookmark for the pair
fails with the 409 conflict raised before any write (an `error` result carries
no store, so nothing is written by construction), and in every store reachable
by serial execution at most one bookmark exists per `(user_id, cafe_id)`
pair.  The spec's `IntegrityError` is the guard's `HTTPException(404, ...)`,
its `ConflictError` the `HTTPException(409, ...)`. -/
theorem create_bookmark_guards (d : BookmarkCreate) (s : Store) :
    (UserRepository.get_user d.user_id s = none →
      BookmarkService.create_bookmark d s = .error (.http 404 "User not found")) ∧
    (∀ u, UserRepository.get_user d.user_id s = some u →
      CafeRepository.get_cafe d.cafe_id s = none →
      BookmarkService.create_bookmark d s = .error (.http 404 "Cafe not found")) ∧
    (∀ u c, UserRepository.get_user d.user_id s = some u →
      CafeRepository.get_cafe d.cafe_id s = some c →
      BookmarkRepository.bookmark_exists d.user_id d.cafe_id s = true →
      BookmarkService.create_bookmark d s = .error (.http 409 "Bookmark already exists")) ∧
    (Reachable s → BookmarkPairUnique s) := by
  refine ⟨fun hu => ?_, fun u hu hc => ?_, fun u c hu hc hb => ?_,
    fun hr => bookmarkPairUnique_reachable s hr⟩
  · simp [BookmarkService.create_bookmark, hu]
  · simp [BookmarkService.create_bookmark, hu, hc]
  · simp [BookmarkService.create_bookmark, hu, hc, hb]

/-- C3 witness: a bookmark referencing a nonexistent user is rejected on the
empty store, which also satisfies the pair-uniqueness invariant. -/
theorem create_bookmark_guards_witness :
    UserRepository.get_user 1 Store.initial = none ∧
      BookmarkService.create_bookmark { user_id := 1, cafe_id := 0 } Store.initial
        = .error (.http 404 "User not found") ∧
      BookmarkPairUnique Store.initial :=
  ⟨by decide,
    (create_bookmark_guards { user_id := 1, cafe_id := 0 } Store.initial).1 (by decide),
    (create_bookmark_guards { user_id := 1, cafe_id := 0 } Store.initial).2.2.2 ⟨[], rfl⟩⟩

/-- C7: in every reachable store no two users share a name; `create_user`
with a taken name fails with the duplicate-name `ValueError` (writing
nothing, the error carrying no store), and with a free name succeeds;
`update_user` renaming onto a *different* existing user's name returns `None`
with the store unchanged.  Name comparison is exact string equality, so names
differing only in case are distinct — the success conjunct applies to them. -/
theorem user_name_unique_spec :
    (∀ s, Reachable s → s.users.Pairwise fun a b => a.name ≠ b.name) ∧
    (∀ (d : UserCreate) (s : Store) u, u ∈ s.users → u.name = d.name →
      UserRepository.create_user d s
        = .error (.valueError "User with this name already exists")) ∧
    (∀ (d : UserCreate) (s : Store), (∀ u ∈ s.users, u.name ≠ d.name) →
      ∃ doc s', UserRepository.create_user d s = .ok (doc, s') ∧ doc.name = d.name ∧
        s'.users = s.users ++ [doc]) ∧
    (∀ (uid : OID) (u : UserUpdate) (n : String) (s : Store) v, u.name = some n →
      v ∈ s.users → v.name = n → v.id ≠ uid →
      UserRepository.update_user uid u s = (none, s)) := by
  refine ⟨fun s hr => (usersWF_reachable s hr).2.2, fun d s u hu hn => ?_, fun d s h => ?_,
    fun uid u n s v hun hv hvn hvid => ?_⟩
  · have ha : s.users.any (·.name == d.name) = true :=
      List.any_eq_true.mpr ⟨u, hu, by simp [hn]⟩
    simp [UserRepository.create_user, ha]
  · have ha : s.users.any (·.name == d.name) = false := by
      rw [List.any_eq_false]
      intro x hx
      simp [h x hx]
    simp only [UserRepository.create_user, ha, Bool.false_eq_true, if_false]
    exact ⟨_, _, rfl, rfl, rfl⟩
  · have ha : (s.users.any fun x => x.name == n && x.id != uid) = true :=
      List.any_eq_true.mpr ⟨v, hv, by simp [hvn, hvid]⟩
    simp [UserRepository.update_user, hun, ha]

/-- C7 witness: in `demoStore` (holding `"Alice"`), registering `"Alice"`
again is rejected, registering the case-different `"alice"` succeeds, and the
empty store satisfies the uniqueness invariant. -/
theorem user_name_unique_spec_witness :
    (UserRepository.create_user { name := "Alice", password := "p" } demoStore
        = .error (.valueError "User with this name already exists")) ∧
      (∃ doc s', UserRepository.create_user { name := "alice", password := "p" } demoStore
          = .ok (doc, s') ∧ doc.name = "alice" ∧ s'.users = demoStore.users ++ [doc]) ∧
      Store.initial.users.Pairwise (fun a b => a.name ≠ b.name) :=
  ⟨user_name_unique_spec.2.1 { name := "Alice", password := "p" } demoStore demoUser
      (by decide) (by decide),
    user_name_unique_spec.2.2.1 { name := "alice", password := "p" } demoStore
      (by decide),
    user_name_unique_spec.1 Store.initial ⟨[], rfl⟩⟩

/-- C1: evaluating the code at the spec's own end-to-end scenario.  Over
`demoStore` (one venue, display rating 1) a review rated 4 is created through
the service; afterwards the venue's surviving reviews carry exactly the
ratings `[4]` (mean 4), yet the stored `average_rating` is still 1: the
recomputation step calls `CafeService.update_cafe_average_rating`, a method
`CafeService` does not define, so the `AttributeError` is swallowed by the
surrounding `try/except` and the aggregate is never updated. -/
theorem average_rating_never_recomputed :
    ((ReviewRepository.get_reviews_by_study_spot 0
        (ReviewService.create_review demoReview demoStore).2).map (·.overall_rating)
      = [4]) ∧
      (CafeRepository.get_cafe 0
          (ReviewService.create_review demoReview demoStore).2).map (·.average_rating)
        = some 1 := by
  decide

/-- C2, counterexample: the claim says creating a review whose `venue_id` or
`user_id` resolves to nothing fails with `IntegrityError` and writes no
document.  On the empty store — no venues, no users — `create_review`
nonetheless writes (and returns) a review document: no referential check
exists anywhere on the review-creation path. -/
theorem create_review_unchecked_counterexample :
    Store.initial.cafes = [] ∧ Store.initial.users = [] ∧
      (ReviewService.create_review ghostReview Store.initial).2.reviews.length = 1 := by
  decide

/-- C2, amended: `create_review` performs no existence check at all — for
every input it appends exactly one review document carrying the given
references and returns it, leaving venues and users untouched, whether or not
the referenced venue and user exist. -/
theorem create_review_unconditional (d : ReviewCreate) (s : Store) :
    (ReviewService.create_review d s).2.reviews
        = s.reviews ++ [(ReviewService.create_review d s).1] ∧
      (ReviewService.create_review d s).1.study_spot_id = d.study_spot_id ∧
      (ReviewService.create_review d s).1.user_id = d.user_id ∧
      (ReviewService.create_review d s).2.cafes = s.cafes ∧
      (ReviewService.create_review d s).2.users = s.users :=
  ⟨rfl, rfl, rfl, rfl, rfl⟩

/-- C4: whenever the aggregate-recomputation step fails — as it always does
in the shipped code, where the called method does not exist — the failure is
swallowed and the triggering review mutation still returns success with its
write durably in place: creation returns the created review with the
post-insert store intact, a rating-changing update returns the updated
review with the post-update store intact, and deletion returns `true` with
the post-delete store intact. -/
theorem review_mutation_survives_recompute_failure
    (recompute : OID → Store → Except String Store) (s : Store) :
    (∀ (d : ReviewCreate) (e : String),
      recompute d.study_spot_id (ReviewRepository.create_review d s).2 = .error e →
      ReviewService.create_review_with recompute d s = ReviewRepository.create_review d s ∧
        (ReviewRepository.create_review d s).1
          ∈ (ReviewService.create_review_with recompute d s).2.reviews) ∧
    (∀ (rid : OID) (u : ReviewUpdate) (r r' : ReviewDoc) (s₁ : Store) (e : String),
      ReviewRepository.get_review rid s = some r →
      ReviewRepository.update_review rid u s = (some r', s₁) →
      u.overall_rating.isSome = true →
      recompute r.study_spot_id s₁ = .error e →
      ReviewService.update_review_with recompute rid u s = (some r', s₁)) ∧
    (∀ (rid : OID) (r : ReviewDoc) (e : String),
      ReviewRepository.get_review rid s = some r →
      recompute r.study_spot_id (ReviewRepository.delete_review rid s).2 = .error e →
      ReviewService.delete_review_with recompute rid s
        = (true, (ReviewRepository.delete_review rid s).2)) := by
  refine ⟨fun d e he => ?_, fun rid u r r' s₁ e h1 h2 h3 h4 => ?_, fun rid r e h1 h2 => ?_⟩
  · simp only [ReviewRepository.create_review] at he
    constructor
    · simp [ReviewService.create_review_with, ReviewService.attemptRecompute,
        ReviewRepository.create_review, he]
    · simp [ReviewService.create_review_with, ReviewService.attemptRecompute,
        ReviewRepository.create_review, he]
  · simp [ReviewService.update_review_with, h1, h2, h3, ReviewService.attemptRecompute, h4]
  · have h1' := h1
    rw [ReviewRepository.get_review] at h1'
    have hpred := List.find?_some h1'
    have hd : s.reviews.any (·.id == rid) = true :=
      List.any_eq_true.mpr ⟨r, List.mem_of_find?_eq_some h1', hpred⟩
    simp only [ReviewRepository.delete_review] at h2
    simp [ReviewService.delete_review_with, h1, ReviewRepository.delete_review, hd,
      ReviewService.attemptRecompute, h2]

/-- C4 witness: the creation conjunct applied over `demoStore` with an
always-failing recomputation step. -/
theorem review_mutation_survives_recompute_failure_witness :
    ((fun (_ : OID) (_ : Store) => (Except.error "E" : Except String Store))
        demoReview.study_spot_id (ReviewRepository.create_review demoReview demoStore).2
      = .error "E") ∧
      ReviewService.create_review_with (fun _ _ => .error "E") demoReview demoStore
          = ReviewRepository.create_review demoReview demoStore ∧
        (ReviewRepository.create_review demoReview demoStore).1
          ∈ (ReviewService.create_review_with (fun _ _ => .error "E")
              demoReview demoStore).2.reviews :=
  ⟨rfl, (review_mutation_survives_recompute_failure (fun _ _ => .error "E") demoStore).1
    demoReview "E" rfl⟩

/-- C9: the password-free read and update surface.  `to_user_response` is
independent of the stored password, and over any two fresh-clock stores that
differ only in stored passwords, `get_user`, `get_all_users` (listUsers),
`search_users` and the result of `update_user` are identical.  (Freshness —
every stored `updated_at` strictly before the clock — is what the monotone
clock guarantees; it pins `modified_count` to the match outcome on both
stores.) -/
theorem user_surface_password_independent (s s' : Store) (h : PwEquiv s s')
    (hfs : UsersFresh s) (hfs' : UsersFresh s') :
    (∀ (u : UserDoc) (pw : String),
      UserService.to_user_response { u with password := pw }
        = UserService.to_user_response u) ∧
    (∀ uid, UserService.get_user uid s = UserService.get_user uid s') ∧
    (∀ skip limit, UserService.get_all_users skip limit s
      = UserService.get_all_users skip limit s') ∧
    (∀ q, UserService.search_users q s = UserService.search_users q s') ∧
    (∀ uid u, (UserService.update_user uid u s).1 = (UserService.update_user uid u s').1) := by
  obtain ⟨-, -, -, -, hclock, husers⟩ := h
  refine ⟨fun u pw => rfl, fun uid => ?_, fun skip limit => ?_, fun q => ?_, fun uid u => ?_⟩
  · simp only [UserService.get_user, UserRepository.get_user]
    exact forall₂_find?_map UserService.to_user_response (fun x => x.id == uid) husers
      (fun a b hab => to_user_response_scrub_congr hab)
      (fun a b hab => beq_id_scrub_congr hab uid)
  · simp only [UserService.get_all_users, UserRepository.get_all_users]
    exact forall₂_map_eq UserService.to_user_response
      (List.forall₂_take limit (List.forall₂_drop skip husers))
      (fun a b hab => to_user_response_scrub_congr hab)
  · simp only [UserService.search_users, UserRepository.search_users]
    refine forall₂_map_eq UserService.to_user_response
      (forall₂_filter _ husers fun a b hab => ?_)
      (fun a b hab => to_user_response_scrub_congr hab)
    have hname : a.name = b.name := congrArg (fun x => x.name) hab
    rw [hname]
  · by_cases he : UserService.UserUpdate.isEmptyDict u
    · simp [UserService.update_user, he]
    · simp only [UserService.update_user, he, Bool.false_eq_true, if_false]
      show (UserRepository.update_user uid u s).1.map UserService.to_user_response
        = (UserRepository.update_user uid u s').1.map UserService.to_user_response
      have hpid : ∀ a b : UserDoc, scrubbed a = scrubbed b → (a.id == uid) = (b.id == uid) :=
        fun a b hab => beq_id_scrub_congr hab uid
      have hfcong : ∀ a b : UserDoc, scrubbed a = scrubbed b →
          scrubbed (UserRepository.applySet u s.clock a)
            = scrubbed (UserRepository.applySet u s.clock b) :=
        fun a b hab => applySet_scrub_congr u s.clock hab
      have hchange : ∀ x ∈ s.users, UserRepository.applySet u s.clock x ≠ x :=
        fun x hx => applySet_ne_of_fresh u s.clock x (hfs x hx)
      have hchange' : ∀ x ∈ s'.users, UserRepository.applySet u s.clock x ≠ x := by
        intro x hx
        rw [hclock]
        exact applySet_ne_of_fresh u s'.clock x (hfs' x hx)
      have hsome : (s.users.find? (fun x => x.id == uid)).isSome
          = (s'.users.find? (fun x => x.id == uid)).isSome :=
        forall₂_find?_isSome _ husers hpid
      have hmc : modifiedCount (fun x => x.id == uid) (UserRepository.applySet u s.clock)
            s.users
          = modifiedCount (fun x => x.id == uid) (UserRepository.applySet u s.clock)
            s'.users := by
        rw [modifiedCount_of_changes _ _ _ hchange, modifiedCount_of_changes _ _ _ hchange',
          hsome]
      have hftail : ((updateFirst (fun x => x.id == uid)
            (UserRepository.applySet u s.clock) s.users).find? (fun x => x.id == uid)).map
              UserService.to_user_response
          = ((updateFirst (fun x => x.id == uid)
            (UserRepository.applySet u s.clock) s'.users).find? (fun x => x.id == uid)).map
              UserService.to_user_response :=
        forall₂_find?_map UserService.to_user_response _
          (forall₂_updateFirst _ _ husers hpid hfcong)
          (fun a b hab => to_user_response_scrub_congr hab) hpid
      rcases hun : u.name with _ | n
      · simp only [UserRepository.update_user, hun, Bool.false_eq_true, if_false, ← hclock]
        by_cases hm : modifiedCount (fun x => x.id == uid) (UserRepository.applySet u s.clock)
            s.users ≠ 0
        · have hm' : modifiedCount (fun x => x.id == uid) (UserRepository.applySet u s.clock)
              s'.users ≠ 0 := by
            rw [← hmc]
            exact hm
          rw [if_pos hm, if_pos hm']
          exact hftail
        · have hm' : ¬ modifiedCount (fun x => x.id == uid) (UserRepository.applySet u s.clock)
              s'.users ≠ 0 := by
            rw [← hmc]
            exact hm
          rw [if_neg hm, if_neg hm']
      · have hany : (s.users.any fun d => d.name == n && d.id != uid)
            = (s'.users.any fun d => d.name == n && d.id != uid) := by
          refine forall₂_any_eq _ husers fun a b hab => ?_
          have hname : a.name = b.name := congrArg (fun x => x.name) hab
          have hid : a.id = b.id := congrArg (fun x => x.id) hab
          rw [hname, hid]
        simp only [UserRepository.update_user, hun, ← hclock]
        by_cases hc : s.users.any fun d => d.name == n && d.id != uid
        · have hc' : (s'.users.any fun d => d.name == n && d.id != uid) = true := by
            rw [← hany]
            exact hc
          rw [if_pos hc, if_pos hc']
        · have hc' : ¬ (s'.users.any fun d => d.name == n && d.id != uid) = true := by
            rw [← hany]
            exact hc
          rw [if_neg hc, if_neg hc']
          by_cases hm : modifiedCount (fun x => x.id == uid)
              (UserRepository.applySet u s.clock) s.users ≠ 0
          · have hm' : modifiedCount (fun x => x.id == uid)
                (UserRepository.applySet u s.clock) s'.users ≠ 0 := by
              rw [← hmc]
              exact hm
            rw [if_pos hm, if_pos hm']
            exact hftail
          · have hm' : ¬ modifiedCount (fun x => x.id == uid)
                (UserRepository.applySet u s.clock) s'.users ≠ 0 := by
              rw [← hmc]
              exact hm
            rw [if_neg hm, if_neg hm']

/-- C9 witness: the theorem applied to `demoStore` and `demoStore'`, which
differ exactly in the stored user's password; a lookup of that user returns
the same password-free response in both. -/
theorem user_surface_password_independent_witness :
    (PwEquiv demoStore demoStore' ∧ UsersFresh demoStore ∧ UsersFresh demoStore') ∧
      UserService.get_user 1 demoStore = UserService.get_user 1 demoStore' :=
  ⟨⟨⟨rfl, rfl, rfl, rfl, rfl, .cons rfl .nil⟩,
      fun u hu => by fin_cases hu <;> decide, fun u hu => by fin_cases hu <;> decide⟩,
    (user_surface_password_independent demoStore demoStore'
      ⟨rfl, rfl, rfl, rfl, rfl, .cons rfl .nil⟩
      (fun u hu => by fin_cases hu <;> decide)
      (fun u hu => by fin_cases hu <;> decide)).2.1 1⟩

/-- C10, counterexample: the claim says a sparse update that leaves every
targeted field at its stored value returns `None` (zero modified documents).
`noopCafeUpdate` targets only `name`, with exactly `demoCafe`'s current name —
yet the update returns the venue, because the repository always `$set`s a
fresh `updated_at`, so `modified_count` is 1, not 0. -/
theorem update_noop_counterexample :
    CafeRepository.get_cafe 0 demoStore = some demoCafe ∧
      noopCafeUpdate.name = some demoCafe.name ∧
      (CafeService.update_cafe 0 noopCafeUpdate demoStore).map Prod.fst
        = .ok (some { demoCafe with updated_at := 1 }) :=
  ⟨rfl, rfl, rfl⟩

/-- C10, amended: on a fresh-clock store, updating an *existing* entity never
returns `None`: the always-refreshed `updated_at` forces `modified_count ≥ 1`
whenever the id matches, so `None` signals a missing entity — or, for
`update_user` only, an empty update dict or a duplicate-name conflict.  (For
venues a location payload must pass coordinate validation to reach the
write.) -/
theorem update_existing_returns_some (s : Store) :
    (∀ (cid : OID) (u : CafeUpdate) (c : CafeDoc),
      CafeRepository.get_cafe cid s = some c → c.updated_at < s.clock →
      (∀ lon lat, u.location = some (lon, lat) →
        CafeService.validate_coordinates lon lat = true) →
      ∃ s', CafeService.update_cafe cid u s
        = .ok (some (CafeRepository.applySet u s.clock c), s')) ∧
    (∀ (rid : OID) (u : ReviewUpdate) (r : ReviewDoc),
      ReviewRepository.get_review rid s = some r → r.updated_at < s.clock →
      (ReviewService.update_review rid u s).1
        = some (ReviewRepository.applySet u s.clock r)) ∧
    (∀ (uid : OID) (u : UserUpdate) (d : UserDoc),
      UserRepository.get_user uid s = some d → d.updated_at < s.clock →
      UserService.UserUpdate.isEmptyDict u = false →
      (∀ n, u.name = some n → (s.users.any fun x => x.name == n && x.id != uid) = false) →
      (UserService.update_user uid u s).1
        = some (UserService.to_user_response (UserRepository.applySet u s.clock d))) := by
  refine ⟨fun cid u c hc hfresh hloc => ?_, fun rid u r hr hfresh => ?_,
    fun uid u d hd hfresh he hnc => ?_⟩
  · have hc' : s.cafes.find? (fun x => x.id == cid) = some c := hc
    have hne : CafeRepository.applySet u s.clock c ≠ c := by
      intro hcontra
      have := congrArg (fun d => d.updated_at) hcontra
      simp only [CafeRepository.applySet] at this
      omega
    have hfind := find?_updateFirst (CafeRepository.applySet u s.clock) hc' fun y => rfl
    refine ⟨{ s with
      cafes := updateFirst (fun x => x.id == cid) (CafeRepository.applySet u s.clock) s.cafes
      clock := s.clock + 1 }, ?_⟩
    simp only [CafeService.update_cafe, hc]
    rcases hl : u.location with _ | ⟨lon, lat⟩
    · simp only [CafeRepository.update_cafe, modifiedCount, hc', hne, if_neg hne]
      simp [hfind]
    · simp only [hloc lon lat hl, if_true, CafeRepository.update_cafe, modifiedCount, hc',
        if_neg hne]
      simp [hfind]
  · have hr' : s.reviews.find? (fun x => x.id == rid) = some r := hr
    have hne : ReviewRepository.applySet u s.clock r ≠ r := by
      intro hcontra
      have := congrArg (fun d => d.updated_at) hcontra
      simp only [ReviewRepository.applySet] at this
      omega
    have hfind := find?_updateFirst (ReviewRepository.applySet u s.clock) hr' fun y => rfl
    simp only [ReviewService.update_review, ReviewService.update_review_with, hr,
      ReviewRepository.update_review, modifiedCount, hr', if_neg hne]
    by_cases ho : u.overall_rating.isSome <;> simp [ho, hfind]
  · have hd' : s.users.find? (fun x => x.id == uid) = some d := hd
    have hne : UserRepository.applySet u s.clock d ≠ d :=
      applySet_ne_of_fresh u s.clock d hfresh
    have hfind := find?_updateFirst (UserRepository.applySet u s.clock) hd' fun y => rfl
    simp only [UserService.update_user, he, Bool.false_eq_true, if_false]
    show (UserRepository.update_user uid u s).1.map UserService.to_user_response = _
    rcases hun : u.name with _ | n
    · simp only [UserRepository.update_user, hun, Bool.false_eq_true, if_false,
        modifiedCount, hd', if_neg hne]
      simp [hfind]
    · simp only [UserRepository.update_user, hun, hnc n hun, Bool.false_eq_true, if_false,
        modifiedCount, hd', if_neg hne]
      simp [hfind]

/-- C10 witness: the amended theorem applied to `demoStore`'s venue, review
and user update paths (venue conjunct shown; hypotheses discharged
concretely). -/
theorem update_existing_returns_some_witness :
    (CafeRepository.get_cafe 0 demoStore = some demoCafe ∧ demoCafe.updated_at < demoStore.clock) ∧
      ∃ s', CafeService.update_cafe 0 noopCafeUpdate demoStore
        = .ok (some (CafeRepository.applySet noopCafeUpdate demoStore.clock demoCafe), s') :=
  ⟨⟨by decide, by decide⟩,
    (update_existing_returns_some demoStore).1 0 noopCafeUpdate demoCafe (by decide) (by decide)
      (fun lon lat hl => by simp [noopCafeUpdate] at hl)⟩

end StudyAPI
